import Mathlib

/- Shallow embedding of the tracking-and-retry subsystem of the
   pectra-analyzer-backend repository: the SQLite persistence layer
   (src/tracker/database.rs), the retry queue manager
   (src/tracker/retry_handler.rs), the chain scanner
   (src/tracker/l2_monitor.rs) and the daily snapshot aggregator
   (src/tracker/snapshot.rs).

   Machine integers are modelled as Nat/Int with explicit wrap-around
   (% 2^64, % 2^32) at the places where the Rust code can overflow.
   Block numbers (u64) are Nat; Unix timestamps (i64) are Int.
   The `id` AUTOINCREMENT columns are irrelevant to every query in the
   sources and are omitted.  Database rows live in Lean lists in insert
   order; the UNIQUE constraint on tx_hash is modelled by the insert
   operations failing on a duplicate key, as SQLite does. -/

/-- Parsed view of the `analysis_result` JSON string stored with each
transaction.  The aggregation queries in src/tracker/database.rs read the
string back with `serde_json::from_str` and extract these four fields with
`as_u64().unwrap_or(0)`; `parses := false` models a string that is not
valid JSON, in which case the queries skip the row entirely.  The sentinel
row stores the string consisting of an opening and a closing brace, which
parses with all four fields absent, i.e. all zero. -/
structure AnalysisFields where
  parses : Bool
  blob_gas_used : Nat
  eip_7623_calldata_gas : Nat
  blob_data_wei_spent : Nat
  eip_7623_calldata_wei_spent : Nat
  deriving DecidableEq, Repr

/-- Row of the `l2_batches_txs` table (struct TrackedBatch in
src/tracker/database.rs). -/
structure TrackedBatch where
  tx_hash : String
  batcher_address : String
  analysis_result : AnalysisFields
  timestamp : Int
  last_analyzed_block : Option Nat
  deriving DecidableEq, Repr

/-- Row of the `failed_transactions` table (struct FailedTransaction in
src/tracker/database.rs). -/
structure FailedTransaction where
  tx_hash : String
  batcher_address : String
  error_message : String
  retry_count : Int
  next_retry_at : Int
  first_failed_at : Int
  last_attempted_at : Int
  deriving DecidableEq, Repr

/-- Row of the `daily_batcher_stats` table (struct DailyBatcherStats in
src/server/types.rs). -/
structure DailyBatcherStats where
  batcher_address : String
  snapshot_timestamp : Int
  total_eth_saved_wei : Nat
  total_daily_txs : Nat
  total_blob_data_gas : Nat
  total_pectra_data_gas : Nat
  deriving DecidableEq, Repr

/-- State of the SQLite database shared by the scanner, the retry handler
and the snapshot aggregator. -/
structure DbState where
  l2_batches_txs : List TrackedBatch
  failed_transactions : List FailedTransaction
  daily_batcher_stats : List DailyBatcherStats
  deriving DecidableEq, Repr

/-- ASCII lower-casing of a character, as SQLite LOWER() and Rust
`to_lowercase` both act on the ASCII hex strings used for addresses. -/
def asciiLowerChar (c : Char) : Char :=
  if 'A' ≤ c ∧ c ≤ 'Z' then Char.ofNat (c.toNat + 32) else c

/-- ASCII lower-casing of a string. -/
def asciiLower (s : String) : String := String.mk (s.data.map asciiLowerChar)

namespace Database

/-- Translation of SqliteDatabase::is_tx_already_tracked:
SELECT COUNT(*) FROM l2_batches_txs WHERE tx_hash = ?, compared with 0. -/
def is_tx_already_tracked (s : DbState) (tx_hash : String) : Bool :=
  s.l2_batches_txs.any (fun r => r.tx_hash == tx_hash)

/-- Translation of SqliteDatabase::is_tx_in_failed_queue:
SELECT COUNT(*) FROM failed_transactions WHERE tx_hash = ?, compared
with 0. -/
def is_tx_in_failed_queue (s : DbState) (tx_hash : String) : Bool :=
  s.failed_transactions.any (fun f => f.tx_hash == tx_hash)

/-- Translation of SqliteDatabase::save_tracked_batch: INSERT INTO
l2_batches_txs with the batcher address lower-cased and
last_analyzed_block NULL.  The UNIQUE constraint on tx_hash makes the
INSERT fail on a duplicate; `ok := false` models any other sqlx error
(connection loss, disk error) on this call.  `none` is the Err case. -/
def save_tracked_batch (ok : Bool) (s : DbState) (batch : TrackedBatch) :
    Option DbState :=
  if ok && !(is_tx_already_tracked s batch.tx_hash) then
    some { s with l2_batches_txs := s.l2_batches_txs ++
            [{ batch with batcher_address := asciiLower batch.batcher_address,
                          last_analyzed_block := none }] }
  else
    none

/-- Translation of SqliteDatabase::get_last_analyzed_block: SELECT
last_analyzed_block FROM l2_batches_txs WHERE tx_hash =
'monitoring_state'.  A missing row or a NULL value is an sqlx error at
runtime; it is modelled as 0 and never reached from states holding the
sentinel row. -/
def get_last_analyzed_block (s : DbState) : Nat :=
  match s.l2_batches_txs.find? (fun r => r.tx_hash == "monitoring_state") with
  | some r => r.last_analyzed_block.getD 0
  | none => 0

/-- Translation of SqliteDatabase::update_last_analyzed_block: UPDATE
l2_batches_txs SET last_analyzed_block = ? WHERE tx_hash =
'monitoring_state'. -/
def update_last_analyzed_block (s : DbState) (block_number : Nat) : DbState :=
  { s with l2_batches_txs := s.l2_batches_txs.map (fun r =>
      if r.tx_hash == "monitoring_state" then
        { r with last_analyzed_block := some block_number }
      else r) }

/-- Translation of SqliteDatabase::save_failed_transaction: INSERT INTO
failed_transactions with the batcher address lower-cased. -/
def save_failed_transaction (s : DbState) (failed_tx : FailedTransaction) :
    DbState :=
  { s with failed_transactions := s.failed_transactions ++
      [{ failed_tx with batcher_address := asciiLower failed_tx.batcher_address }] }

/-- Insertion step of the ORDER BY next_retry_at sort. -/
def insertByRetryAt (f : FailedTransaction) :
    List FailedTransaction → List FailedTransaction
  | [] => [f]
  | g :: t =>
      if f.next_retry_at ≤ g.next_retry_at then f :: g :: t
      else g :: insertByRetryAt f t

/-- Stable sort by next_retry_at ascending, modelling ORDER BY
next_retry_at. -/
def sortByRetryAt : List FailedTransaction → List FailedTransaction
  | [] => []
  | f :: t => insertByRetryAt f (sortByRetryAt t)

/-- Translation of SqliteDatabase::get_failed_transactions_ready_for_retry:
SELECT ... FROM failed_transactions WHERE next_retry_at <= ? ORDER BY
next_retry_at, with ? the current Unix time, passed here as `now`. -/
def get_failed_transactions_ready_for_retry (now : Int) (s : DbState) :
    List FailedTransaction :=
  sortByRetryAt (s.failed_transactions.filter (fun f =>
    decide (f.next_retry_at ≤ now)))

/-- Translation of SqliteDatabase::update_failed_transaction_retry: UPDATE
failed_transactions SET retry_count, next_retry_at, error_message,
last_attempted_at WHERE tx_hash = ?; last_attempted_at is set to the
current time, passed here as `now`. -/
def update_failed_transaction_retry (now : Int) (s : DbState)
    (tx_hash : String) (retry_count : Int) (next_retry_at : Int)
    (error_message : String) : DbState :=
  { s with failed_transactions := s.failed_transactions.map (fun f =>
      if f.tx_hash == tx_hash then
        { f with retry_count := retry_count, next_retry_at := next_retry_at,
                 error_message := error_message, last_attempted_at := now }
      else f) }

/-- Translation of SqliteDatabase::remove_failed_transaction: DELETE FROM
failed_transactions WHERE tx_hash = ?. -/
def remove_failed_transaction (s : DbState) (tx_hash : String) : DbState :=
  { s with failed_transactions := s.failed_transactions.filter (fun f =>
      f.tx_hash != tx_hash) }

/-- Row filter shared by every aggregation query in
src/tracker/database.rs: timestamp inside [start_timestamp,
end_timestamp] and tx_hash different from the 'monitoring_state'
sentinel. -/
def window_rows (s : DbState) (start_timestamp end_timestamp : Int) :
    List TrackedBatch :=
  s.l2_batches_txs.filter (fun r =>
    decide (start_timestamp ≤ r.timestamp) &&
    decide (r.timestamp ≤ end_timestamp) &&
    (r.tx_hash != "monitoring_state"))

/-- Translation of SqliteDatabase::get_daily_transactions: COUNT(*) over
the window restricted to batcher_address = LOWER(?). -/
def get_daily_transactions (s : DbState) (batcher_address : String)
    (start_timestamp end_timestamp : Int) : Nat :=
  ((window_rows s start_timestamp end_timestamp).filter (fun r =>
    r.batcher_address == asciiLower batcher_address)).length

/-- ETH saved by one parsed analysis result:
eip_7623_calldata_wei_spent.saturating_sub(blob_data_wei_spent); Nat
subtraction is exactly saturating u128 subtraction here. -/
def eth_saved_of (a : AnalysisFields) : Nat :=
  a.eip_7623_calldata_wei_spent - a.blob_data_wei_spent

/-- Translation of SqliteDatabase::get_eth_saved_data: sum of the ETH
saved over the window rows of one address whose analysis_result parses. -/
def get_eth_saved_data (s : DbState) (batcher_address : String)
    (start_timestamp end_timestamp : Int) : Nat :=
  (((window_rows s start_timestamp end_timestamp).filter (fun r =>
      r.batcher_address == asciiLower batcher_address &&
      r.analysis_result.parses)).map (fun r =>
        eth_saved_of r.analysis_result)).sum

/-- Translation of SqliteDatabase::get_total_blob_data_gas. -/
def get_total_blob_data_gas (s : DbState) (batcher_address : String)
    (start_timestamp end_timestamp : Int) : Nat :=
  (((window_rows s start_timestamp end_timestamp).filter (fun r =>
      r.batcher_address == asciiLower batcher_address &&
      r.analysis_result.parses)).map (fun r =>
        r.analysis_result.blob_gas_used)).sum

/-- Translation of SqliteDatabase::get_total_pectra_data_gas. -/
def get_total_pectra_data_gas (s : DbState) (batcher_address : String)
    (start_timestamp end_timestamp : Int) : Nat :=
  (((window_rows s start_timestamp end_timestamp).filter (fun r =>
      r.batcher_address == asciiLower batcher_address &&
      r.analysis_result.parses)).map (fun r =>
        r.analysis_result.eip_7623_calldata_gas)).sum

/-- Translation of SqliteDatabase::get_all_daily_transactions: GROUP BY
batcher_address with COUNT(*).  The grouped result is produced here in
first-occurrence order of the addresses; the source order (SQL GROUP BY)
is unspecified and no theorem below depends on it. -/
def get_all_daily_transactions (s : DbState)
    (start_timestamp end_timestamp : Int) : List (String × Nat) :=
  let rows := window_rows s start_timestamp end_timestamp
  (rows.map (fun r => r.batcher_address)).dedup.map (fun a =>
    (a, (rows.filter (fun r => r.batcher_address == a)).length))

/-- Translation of SqliteDatabase::get_all_eth_saved_data: per-address sum
of the ETH saved over the parsing window rows, accumulated in a HashMap in
the source; the iteration order of the result is unspecified there and is
first-occurrence order here. -/
def get_all_eth_saved_data (s : DbState)
    (start_timestamp end_timestamp : Int) : List (String × Nat) :=
  let rows := (window_rows s start_timestamp end_timestamp).filter (fun r =>
    r.analysis_result.parses)
  (rows.map (fun r => r.batcher_address)).dedup.map (fun a =>
    (a, ((rows.filter (fun r => r.batcher_address == a)).map (fun r =>
        eth_saved_of r.analysis_result)).sum))

/-- Translation of SqliteDatabase::get_all_total_blob_data_gas. -/
def get_all_total_blob_data_gas (s : DbState)
    (start_timestamp end_timestamp : Int) : List (String × Nat) :=
  let rows := (window_rows s start_timestamp end_timestamp).filter (fun r =>
    r.analysis_result.parses)
  (rows.map (fun r => r.batcher_address)).dedup.map (fun a =>
    (a, ((rows.filter (fun r => r.batcher_address == a)).map (fun r =>
        r.analysis_result.blob_gas_used)).sum))

/-- Translation of SqliteDatabase::get_all_total_pectra_data_gas. -/
def get_all_total_pectra_data_gas (s : DbState)
    (start_timestamp end_timestamp : Int) : List (String × Nat) :=
  let rows := (window_rows s start_timestamp end_timestamp).filter (fun r =>
    r.analysis_result.parses)
  (rows.map (fun r => r.batcher_address)).dedup.map (fun a =>
    (a, ((rows.filter (fun r => r.batcher_address == a)).map (fun r =>
        r.analysis_result.eip_7623_calldata_gas)).sum))

/-- Sentinel row inserted by SqliteDatabase::new: tx_hash and
batcher_address 'monitoring_state', analysis_result the empty JSON object
(which parses with all fields zero), timestamp 0, last_analyzed_block the
initial block. -/
def sentinel_row (initial_block : Nat) : TrackedBatch :=
  { tx_hash := "monitoring_state", batcher_address := "monitoring_state",
    analysis_result := ⟨true, 0, 0, 0, 0⟩, timestamp := 0,
    last_analyzed_block := some initial_block }

/-- Translation of SqliteDatabase::new on an already-opened database
state: CREATE TABLE IF NOT EXISTS is a no-op on the model, and INSERT OR
IGNORE adds the sentinel row only when no row with tx_hash
'monitoring_state' exists (the UNIQUE constraint turns the conflict into
an ignore). -/
def sqlite_database_new (initial_block : Nat) (s : DbState) : DbState :=
  if is_tx_already_tracked s "monitoring_state" then s
  else { s with l2_batches_txs := s.l2_batches_txs ++ [sentinel_row initial_block] }

/-- Fresh database file: both tables empty before SqliteDatabase::new
runs. -/
def emptyDb : DbState :=
  { l2_batches_txs := [], failed_transactions := [], daily_batcher_stats := [] }

end Database

/-- Outcome of one call to analyze_transaction for a given hash, as seen
by the code under verification: `analysis = some a` is the Ok case with
the serialized result abstracted as its parsed field view `a`;
`analysis = none` is the Err case, whose display text is
`error_message`.  `saveOk` tells whether the subsequent
save_tracked_batch call, if reached, succeeds at the sqlx level. -/
structure RetryOutcome where
  analysis : Option AnalysisFields
  error_message : String
  saveOk : Bool
  deriving DecidableEq, Repr

namespace RetryHandler

/-- Constant MAX_RETRY_ATTEMPTS (i32) from src/tracker/retry_handler.rs. -/
def MAX_RETRY_ATTEMPTS : Int := 5

/-- Constant BASE_RETRY_DELAY (u64, seconds) from
src/tracker/retry_handler.rs. -/
def BASE_RETRY_DELAY : Nat := 60

/-- Constant MAX_RETRY_DELAY (u64, seconds) from
src/tracker/retry_handler.rs. -/
def MAX_RETRY_DELAY : Nat := 3600

/-- Translation of RetryHandler::calculate_next_retry_time.  The source
computes BASE_RETRY_DELAY * 2_u64.pow(retry_count as u32): the i32-to-u32
cast wraps modulo 2^32 and the u64 power and product wrap modulo 2^64
(release-profile semantics); the capped delay is at most 3600 so the
u64-to-i64 cast is exact.  The current time read from SystemTime is the
parameter `now`. -/
def calculate_next_retry_time (now : Int) (retry_count : Int) : Int :=
  let delay : Nat :=
    BASE_RETRY_DELAY * (2 ^ ((retry_count % 4294967296).toNat) % 18446744073709551616) %
      18446744073709551616
  let capped_delay : Nat := min delay MAX_RETRY_DELAY
  now + (capped_delay : Int)

/-- Translation of RetryHandler::save_failed_transaction: when the hash is
already queued, update it with retry_count 1, next_retry_at computed for
retry_count 1 and the new error message; otherwise insert a fresh entry
with retry_count 0 and next_retry_at computed for retry_count 0.  The
current time read from SystemTime is the parameter `now`, both here and
inside the db-level update. -/
def save_failed_transaction (now : Int) (s : DbState) (tx_hash : String)
    (batcher_address : String) (error_message : String) : DbState :=
  if Database.is_tx_in_failed_queue s tx_hash then
    Database.update_failed_transaction_retry now s tx_hash 1
      (calculate_next_retry_time now 1) error_message
  else
    Database.save_failed_transaction s
      { tx_hash := tx_hash, batcher_address := batcher_address,
        error_message := error_message, retry_count := 0,
        next_retry_at := calculate_next_retry_time now 0,
        first_failed_at := now, last_attempted_at := now }

/-- TrackedBatch built in the success branch of
RetryHandler::process_retry_queue (lines 120-130): the hash and address of
the failed entry, the fresh analysis result, the current time as
timestamp. -/
def retry_tracked_batch (now : Int) (failed_tx : FailedTransaction)
    (res : AnalysisFields) : TrackedBatch :=
  { tx_hash := failed_tx.tx_hash, batcher_address := failed_tx.batcher_address,
    analysis_result := res, timestamp := now, last_analyzed_block := none }

/-- Error message written by the retry handler when save_tracked_batch
fails after a successful re-analysis; the interpolated sqlx error text is
abstracted away. -/
def db_save_error_message : String := "Database save error"

/-- Translation of the body of the per-entry loop of
RetryHandler::process_retry_queue acting on one fetched entry.  The first
component is the database state after the entry is fully processed; the
second lists the hashes for which analyze_transaction was invoked (empty
for the abandoned branch, the entry's own hash otherwise). -/
def process_retry_entry (now : Int) (oracle : String → RetryOutcome)
    (s : DbState) (failed_tx : FailedTransaction) :
    DbState × List String :=
  if MAX_RETRY_ATTEMPTS ≤ failed_tx.retry_count then
    (Database.remove_failed_transaction s failed_tx.tx_hash, [])
  else
    match (oracle failed_tx.tx_hash).analysis with
    | some res =>
        match Database.save_tracked_batch (oracle failed_tx.tx_hash).saveOk s
            (retry_tracked_batch now failed_tx res) with
        | some s2 =>
            (Database.remove_failed_transaction s2 failed_tx.tx_hash,
             [failed_tx.tx_hash])
        | none =>
            (Database.update_failed_transaction_retry now s failed_tx.tx_hash
               (failed_tx.retry_count + 1)
               (calculate_next_retry_time now (failed_tx.retry_count + 1))
               db_save_error_message,
             [failed_tx.tx_hash])
    | none =>
        (Database.update_failed_transaction_retry now s failed_tx.tx_hash
           (failed_tx.retry_count + 1)
           (calculate_next_retry_time now (failed_tx.retry_count + 1))
           (oracle failed_tx.tx_hash).error_message,
         [failed_tx.tx_hash])

/-- Intermediate database state inside the success branch of the retry
loop: after the save_tracked_batch call of retry_handler.rs line 132
succeeded and before the remove_failed_transaction call of line 151 runs.
Returns none when that program point is not reached for this entry. -/
def retry_mid_state (now : Int) (oracle : String → RetryOutcome)
    (s : DbState) (failed_tx : FailedTransaction) : Option DbState :=
  if MAX_RETRY_ATTEMPTS ≤ failed_tx.retry_count then none
  else
    match (oracle failed_tx.tx_hash).analysis with
    | some res =>
        Database.save_tracked_batch (oracle failed_tx.tx_hash).saveOk s
          (retry_tracked_batch now failed_tx res)
    | none => none

/-- Translation of RetryHandler::process_retry_queue: the ready entries
are fetched once up front, then processed in order against the evolving
state.  The second component collects every hash for which
analyze_transaction was invoked during the pass. -/
def process_retry_queue (now : Int) (oracle : String → RetryOutcome)
    (s : DbState) : DbState × List String :=
  (Database.get_failed_transactions_ready_for_retry now s).foldl
    (fun acc f =>
      let r := process_retry_entry now oracle acc.1 f
      (r.1, acc.2 ++ r.2))
    (s, [])

end RetryHandler

/-- Discovery and processing outcome for one transaction hash returned by
the Etherscan query in the scanner: `analysis`/`error_message` mirror
RetryOutcome, and `saveOk` tells whether the save_tracked_batch call, if
reached, succeeds. -/
structure TxOutcome where
  tx_hash : String
  analysis : Option AnalysisFields
  error_message : String
  saveOk : Bool
  deriving DecidableEq, Repr

/-- Result of the per-address get_normal_txs call in one scanner cycle:
none models an Etherscan error for this address (logged, address
skipped), some txs the returned transaction list in provider order
(already truncated to the page limit by the provider). -/
structure AddressFetch where
  address : String
  fetch : Option (List TxOutcome)
  deriving DecidableEq, Repr

/-- Inputs of one iteration of the scanner loop: the current time, the
chain head returned by get_block_number, and the per-address fetch
results. -/
structure CycleInput where
  now : Int
  head : Nat
  fetches : List AddressFetch
  deriving DecidableEq, Repr

namespace L2Monitor

/-- Translation of the per-transaction body of start_monitoring
(src/tracker/l2_monitor.rs lines 64-138): skip when already tracked, skip
when already in the failed queue, otherwise analyze; on analysis failure
enqueue into the retry queue; on analysis success save the batch, a save
error being only logged. -/
def scanner_process_tx (now : Int) (batcher_address : String)
    (o : TxOutcome) (s : DbState) : DbState :=
  if Database.is_tx_already_tracked s o.tx_hash then s
  else if Database.is_tx_in_failed_queue s o.tx_hash then s
  else
    match o.analysis with
    | none =>
        RetryHandler.save_failed_transaction now s o.tx_hash batcher_address
          o.error_message
    | some res =>
        match Database.save_tracked_batch o.saveOk s
            { tx_hash := o.tx_hash, batcher_address := batcher_address,
              analysis_result := res, timestamp := now,
              last_analyzed_block := none } with
        | some s2 => s2
        | none => s

/-- Translation of the address loop of start_monitoring (lines 45-147): a
failed get_normal_txs call is logged and the address skipped; a
successful one processes the returned transactions in order. -/
def scanner_scan_phase (now : Int) (fetches : List AddressFetch)
    (s : DbState) : DbState :=
  fetches.foldl
    (fun acc af =>
      match af.fetch with
      | none => acc
      | some txs => txs.foldl (fun a o => scanner_process_tx now af.address o a) acc)
    s

/-- Translation of one full iteration of the start_monitoring loop: scan
every address, then unconditionally set the cursor to the head observed
at the start of the cycle (line 150). -/
def scanner_cycle (c : CycleInput) (s : DbState) : DbState :=
  Database.update_last_analyzed_block (scanner_scan_phase c.now c.fetches s) c.head

/-- Sequence of scanner cycles. -/
def run_cycles (s : DbState) (cs : List CycleInput) : DbState :=
  cs.foldl (fun acc c => scanner_cycle c acc) s

end L2Monitor

namespace Snapshot

/-- Accumulator struct TmpStats local to create_and_save_snapshot
(src/tracker/snapshot.rs lines 50-56), with Default all-zero. -/
structure TmpStats where
  total_daily_txs : Nat := 0
  total_eth_saved_wei : Nat := 0
  total_blob_data_gas : Nat := 0
  total_pectra_data_gas : Nat := 0
  deriving DecidableEq, Repr

/-- Translation of map.entry(key).or_default() followed by a field
assignment: update the entry in place when the key is present, otherwise
append the key with the assignment applied to the default value. -/
def setEntry (m : List (String × TmpStats)) (key : String)
    (assign : TmpStats → TmpStats) : List (String × TmpStats) :=
  if m.any (fun p => p.1 == key) then
    m.map (fun p => if p.1 == key then (p.1, assign p.2) else p)
  else
    m ++ [(key, assign {})]

/-- Translation of the four merge loops of create_and_save_snapshot
(lines 60-77): each aggregate list assigns its own field into the
accumulator map, in source order daily_txs, eth_saved, blob_gas,
pectra_gas. -/
def snapshot_merge (daily_txs eth_saved blob_gas pectra_gas :
    List (String × Nat)) : List (String × TmpStats) :=
  let m1 := daily_txs.foldl (fun m p =>
    setEntry m p.1 (fun t => { t with total_daily_txs := p.2 })) []
  let m2 := eth_saved.foldl (fun m p =>
    setEntry m p.1 (fun t => { t with total_eth_saved_wei := p.2 })) m1
  let m3 := blob_gas.foldl (fun m p =>
    setEntry m p.1 (fun t => { t with total_blob_data_gas := p.2 })) m2
  pectra_gas.foldl (fun m p =>
    setEntry m p.1 (fun t => { t with total_pectra_data_gas := p.2 })) m3

/-- Key equality on daily_batcher_stats rows: same batcher address and
same snapshot day. -/
def statKeyEq (q r : DailyBatcherStats) : Bool :=
  q.batcher_address == r.batcher_address &&
  q.snapshot_timestamp == r.snapshot_timestamp

/-- Modelled from the spec: the persistence step
`insert_daily_batcher_stats` called by create_and_save_snapshot is not
among the sources here (only its caller in src/tracker/snapshot.rs is);
the spec requires an upsert per (address, day) key.  A single row upsert:
replace the rows holding the same key, or append when the key is new. -/
def upsert_stat (t : List DailyBatcherStats) (r : DailyBatcherStats) :
    List DailyBatcherStats :=
  if t.any (fun q => statKeyEq q r) then
    t.map (fun q => if statKeyEq q r then r else q)
  else
    t ++ [r]

/-- Modelled from the spec: `insert_daily_batcher_stats` writes the full
batch atomically (all rows or none) and upserts per (address, day) key
rather than appending; the atomic write of the whole batch is this single
pure fold. -/
def insert_daily_batcher_stats (t : List DailyBatcherStats)
    (rows : List DailyBatcherStats) : List DailyBatcherStats :=
  rows.foldl upsert_stat t

/-- Day-start used by create_and_save_snapshot: (now_ts / 86_400) *
86_400 with Rust i64 division, which truncates toward zero
(Int.tdiv). -/
def day_start_ts (now_ts : Int) : Int := (Int.tdiv now_ts 86400) * 86400

/-- Translation of create_and_save_snapshot (src/tracker/snapshot.rs
lines 34-96): window of the previous UTC day, the four all-address
aggregates over it, the merge into one TmpStats per address, the rows
with snapshot_timestamp = window start, and the batch write.  Returns the
new database state and the row batch that was written. -/
def create_and_save_snapshot (now_ts : Int) (s : DbState) :
    DbState × List DailyBatcherStats :=
  let start_ts := day_start_ts now_ts - 86400
  let end_ts := day_start_ts now_ts - 1
  let m := snapshot_merge
    (Database.get_all_daily_transactions s start_ts end_ts)
    (Database.get_all_eth_saved_data s start_ts end_ts)
    (Database.get_all_total_blob_data_gas s start_ts end_ts)
    (Database.get_all_total_pectra_data_gas s start_ts end_ts)
  let stats_vec := m.map (fun p =>
    { batcher_address := p.1, snapshot_timestamp := start_ts,
      total_eth_saved_wei := p.2.total_eth_saved_wei,
      total_daily_txs := p.2.total_daily_txs,
      total_blob_data_gas := p.2.total_blob_data_gas,
      total_pectra_data_gas := p.2.total_pectra_data_gas : DailyBatcherStats })
  ({ s with daily_batcher_stats :=
      insert_daily_batcher_stats s.daily_batcher_stats stats_vec },
   stats_vec)

end Snapshot

/-- Difference between the computed next retry time and the current time,
as a function of the retry count alone. -/
theorem calculate_next_retry_time_sub (now rc : Int) :
    RetryHandler.calculate_next_retry_time now rc - now =
      ((min (RetryHandler.BASE_RETRY_DELAY *
          (2 ^ ((rc % 4294967296).toNat) % 18446744073709551616) %
          18446744073709551616) RetryHandler.MAX_RETRY_DELAY : Nat) : Int) := by
  simp [RetryHandler.calculate_next_retry_time]

/-- C2: for every retry_count in 0..=4 the delay computed by
calculate_next_retry_time is exactly min(60 * 2^retry_count, 3600)
seconds past the current time; the delays for retry counts 0..4 are 60,
120, 240, 480 and 960 seconds, each below the 3600-second cap. -/
theorem C2_backoff_formula (now rc : Int) (h0 : 0 ≤ rc) (h4 : rc ≤ 4) :
    RetryHandler.calculate_next_retry_time now rc - now =
      ((min (60 * 2 ^ rc.toNat) 3600 : Nat) : Int)
    ∧ RetryHandler.calculate_next_retry_time now 0 - now = 60
    ∧ RetryHandler.calculate_next_retry_time now 1 - now = 120
    ∧ RetryHandler.calculate_next_retry_time now 2 - now = 240
    ∧ RetryHandler.calculate_next_retry_time now 3 - now = 480
    ∧ RetryHandler.calculate_next_retry_time now 4 - now = 960
    ∧ 60 * 2 ^ rc.toNat < 3600 := by
  lift rc to Nat using h0 with k
  replace h4 : k ≤ 4 := by exact_mod_cast h4
  refine ⟨?_, ?_, ?_, ?_, ?_, ?_, ?_⟩
  · interval_cases k <;> (rw [calculate_next_retry_time_sub]; decide)
  · rw [calculate_next_retry_time_sub]; decide
  · rw [calculate_next_retry_time_sub]; decide
  · rw [calculate_next_retry_time_sub]; decide
  · rw [calculate_next_retry_time_sub]; decide
  · rw [calculate_next_retry_time_sub]; decide
  · interval_cases k <;> decide

/-- Witness for C2 at now = 100 and retry_count = 4. -/
theorem C2_backoff_formula_witness :
    (0 : Int) ≤ 4 ∧ (4 : Int) ≤ 4 ∧
    (RetryHandler.calculate_next_retry_time 100 4 - 100 =
      ((min (60 * 2 ^ (4 : Int).toNat) 3600 : Nat) : Int)
    ∧ RetryHandler.calculate_next_retry_time 100 0 - 100 = 60
    ∧ RetryHandler.calculate_next_retry_time 100 1 - 100 = 120
    ∧ RetryHandler.calculate_next_retry_time 100 2 - 100 = 240
    ∧ RetryHandler.calculate_next_retry_time 100 3 - 100 = 480
    ∧ RetryHandler.calculate_next_retry_time 100 4 - 100 = 960
    ∧ 60 * 2 ^ (4 : Int).toNat < 3600) :=
  ⟨by decide, by decide, C2_backoff_formula 100 4 (by decide) (by decide)⟩

/-- Database state used by witnesses: a fresh database initialised at
block 0 holding one failed transaction with hash 0xa, ready for retry at
time 0. -/
def dbWitness : DbState :=
  { l2_batches_txs := [Database.sentinel_row 0],
    failed_transactions :=
      [{ tx_hash := "0xa", batcher_address := "0xb",
         error_message := "boom", retry_count := 1, next_retry_at := 0,
         first_failed_at := 0, last_attempted_at := 0 }],
    daily_batcher_stats := [] }

/-- C4: save_failed_transaction updates an already-queued hash with the
new error message, retry_count 1 and next_retry_at recomputed as if one
retry has occurred (delay min(60 * 2^1, 3600)); a new hash is inserted
fresh with retry_count 0, next_retry_at computed from retry_count 0
(delay min(60 * 2^0, 3600)) and first_failed_at = last_attempted_at =
now. -/
theorem C4_save_failed_transaction (now : Int) (s : DbState) (h a e : String) :
    (Database.is_tx_in_failed_queue s h = true →
      RetryHandler.save_failed_transaction now s h a e =
        { s with failed_transactions := s.failed_transactions.map (fun f =>
            if f.tx_hash == h then
              { f with retry_count := 1,
                       next_retry_at := now + ((min (60 * 2 ^ 1) 3600 : Nat) : Int),
                       error_message := e, last_attempted_at := now }
            else f) })
    ∧ (Database.is_tx_in_failed_queue s h = false →
      RetryHandler.save_failed_transaction now s h a e =
        { s with failed_transactions := s.failed_transactions ++
            [{ tx_hash := h, batcher_address := asciiLower a, error_message := e,
               retry_count := 0,
               next_retry_at := now + ((min (60 * 2 ^ 0) 3600 : Nat) : Int),
               first_failed_at := now, last_attempted_at := now }] }) := by
  constructor <;> intro hq <;>
    simp [RetryHandler.save_failed_transaction, hq,
      Database.update_failed_transaction_retry, Database.save_failed_transaction,
      RetryHandler.calculate_next_retry_time, RetryHandler.BASE_RETRY_DELAY,
      RetryHandler.MAX_RETRY_DELAY]

/-- Witness for C4: both branches evaluated on concrete states. -/
theorem C4_save_failed_transaction_witness :
    (Database.is_tx_in_failed_queue dbWitness "0xa" = true ∧
      (RetryHandler.save_failed_transaction 100 dbWitness "0xa" "0xB" "err"
        ).failed_transactions.map (fun f =>
          (f.retry_count, f.next_retry_at, f.error_message)) = [(1, 220, "err")])
    ∧ (Database.is_tx_in_failed_queue Database.emptyDb "0xc" = false ∧
      (RetryHandler.save_failed_transaction 100 Database.emptyDb "0xc" "0xB" "err"
        ).failed_transactions =
          [{ tx_hash := "0xc", batcher_address := "0xb",
             error_message := "err", retry_count := 0, next_retry_at := 160,
             first_failed_at := 100, last_attempted_at := 100 }]) := by
  refine ⟨⟨by decide, ?_⟩, ⟨by decide, ?_⟩⟩
  · rw [(C4_save_failed_transaction 100 dbWitness "0xa" "0xB" "err").1 (by decide)]
    decide
  · rw [(C4_save_failed_transaction 100 Database.emptyDb "0xc" "0xB" "err").2 (by decide)]
    decide

/-- Characterisation of a successful save_tracked_batch: the sqlx call
succeeded, the hash was not yet tracked, and the row was appended with a
lower-cased address and NULL last_analyzed_block. -/
theorem save_tracked_batch_eq_some (ok : Bool) (s : DbState)
    (batch : TrackedBatch) (s' : DbState)
    (h : Database.save_tracked_batch ok s batch = some s') :
    s' = { s with l2_batches_txs := s.l2_batches_txs ++
        [{ batch with batcher_address := asciiLower batch.batcher_address,
                      last_analyzed_block := none }] }
    ∧ ok = true ∧ Database.is_tx_already_tracked s batch.tx_hash = false := by
  unfold Database.save_tracked_batch at h
  split at h
  · next hc =>
      simp only [Bool.and_eq_true, Bool.not_eq_true'] at hc
      exact ⟨(Option.some.inj h).symm, hc.1, hc.2⟩
  · cases h

/-- Every path through the per-transaction scanner body leaves the
l2_batches_txs list unchanged or appends exactly one row to its end. -/
theorem scanner_process_tx_l2_shape (now : Int) (addr : String)
    (o : TxOutcome) (s : DbState) :
    (L2Monitor.scanner_process_tx now addr o s).l2_batches_txs = s.l2_batches_txs
    ∨ ∃ b, (L2Monitor.scanner_process_tx now addr o s).l2_batches_txs =
        s.l2_batches_txs ++ [b] := by
  unfold L2Monitor.scanner_process_tx
  split
  · exact Or.inl rfl
  split
  · exact Or.inl rfl
  split
  · unfold RetryHandler.save_failed_transaction
    split
    · exact Or.inl rfl
    · exact Or.inl rfl
  · next res heq =>
      cases hsv : Database.save_tracked_batch o.saveOk s
          { tx_hash := o.tx_hash, batcher_address := addr,
            analysis_result := res, timestamp := now,
            last_analyzed_block := none } with
      | none => simp [hsv]
      | some s2 =>
          simp only [hsv]
          right
          exact ⟨_, by rw [(save_tracked_batch_eq_some _ _ _ _ hsv).1]⟩

/-- A find? over a list extended on the right still returns the hit found
on the left part. -/
theorem find?_append_left {α : Type} (p : α → Bool) (l t : List α) (a : α)
    (h : l.find? p = some a) : (l ++ t).find? p = some a := by
  rw [List.find?_append, h]; rfl

/-- The cursor read depends only on the first sentinel row, so appending
rows on the right never changes it once a sentinel row exists. -/
theorem get_last_analyzed_block_append (s : DbState) (t : List TrackedBatch)
    (hs : Database.is_tx_already_tracked s "monitoring_state" = true) :
    Database.get_last_analyzed_block
      { s with l2_batches_txs := s.l2_batches_txs ++ t } =
    Database.get_last_analyzed_block s := by
  unfold Database.get_last_analyzed_block
  unfold Database.is_tx_already_tracked at hs
  rw [List.any_eq_true] at hs
  obtain ⟨r, hr, hrh⟩ := hs
  obtain ⟨a, ha⟩ : ∃ a, s.l2_batches_txs.find?
      (fun x => x.tx_hash == "monitoring_state") = some a :=
    Option.isSome_iff_exists.mp (List.find?_isSome.mpr ⟨r, hr, hrh⟩)
  simp only [ha, find?_append_left _ _ _ _ ha]

/-- Sentinel presence is preserved by the per-transaction scanner body. -/
theorem sentinel_scanner_process_tx (now : Int) (addr : String)
    (o : TxOutcome) (s : DbState)
    (hs : Database.is_tx_already_tracked s "monitoring_state" = true) :
    Database.is_tx_already_tracked (L2Monitor.scanner_process_tx now addr o s)
      "monitoring_state" = true := by
  rcases scanner_process_tx_l2_shape now addr o s with h | ⟨b, h⟩ <;>
    (unfold Database.is_tx_already_tracked at hs ⊢; rw [h]) <;>
    simp_all

/-- The cursor is untouched by the per-transaction scanner body. -/
theorem cursor_scanner_process_tx (now : Int) (addr : String)
    (o : TxOutcome) (s : DbState)
    (hs : Database.is_tx_already_tracked s "monitoring_state" = true) :
    Database.get_last_analyzed_block (L2Monitor.scanner_process_tx now addr o s) =
      Database.get_last_analyzed_block s := by
  rcases scanner_process_tx_l2_shape now addr o s with h | ⟨b, h⟩
  · unfold Database.get_last_analyzed_block
    rw [h]
  · have h2 := get_last_analyzed_block_append s [b] hs
    unfold Database.get_last_analyzed_block at h2 ⊢
    rw [h]
    exact h2

/-- Sentinel presence and the cursor value are both preserved by the whole
scan phase of a cycle: the cursor is not mutated before the end-of-cycle
update. -/
theorem cursor_scanner_scan_phase (now : Int) (fetches : List AddressFetch)
    (s : DbState)
    (hs : Database.is_tx_already_tracked s "monitoring_state" = true) :
    Database.is_tx_already_tracked (L2Monitor.scanner_scan_phase now fetches s)
      "monitoring_state" = true
    ∧ Database.get_last_analyzed_block (L2Monitor.scanner_scan_phase now fetches s) =
        Database.get_last_analyzed_block s := by
  induction fetches generalizing s with
  | nil => exact ⟨hs, rfl⟩
  | cons af t ih =>
      cases haf : af.fetch with
      | none =>
          have he : L2Monitor.scanner_scan_phase now (af :: t) s =
              L2Monitor.scanner_scan_phase now t s := by
            unfold L2Monitor.scanner_scan_phase
            simp [haf]
          rw [he]
          exact ih s hs
      | some txs =>
          have hstep : ∀ (l : List TxOutcome) (u : DbState),
              Database.is_tx_already_tracked u "monitoring_state" = true →
              Database.is_tx_already_tracked
                (l.foldl (fun a o => L2Monitor.scanner_process_tx now af.address o a) u)
                "monitoring_state" = true
              ∧ Database.get_last_analyzed_block
                  (l.foldl (fun a o => L2Monitor.scanner_process_tx now af.address o a) u) =
                Database.get_last_analyzed_block u := by
            intro l
            induction l with
            | nil => exact fun u hu => ⟨hu, rfl⟩
            | cons o l ihl =>
                intro u hu
                have h1 := sentinel_scanner_process_tx now af.address o u hu
                have h2 := cursor_scanner_process_tx now af.address o u hu
                simpa [h2] using ihl (L2Monitor.scanner_process_tx now af.address o u) h1
          have he : L2Monitor.scanner_scan_phase now (af :: t) s =
              L2Monitor.scanner_scan_phase now t
                (txs.foldl (fun a o => L2Monitor.scanner_process_tx now af.address o a) s) := by
            unfold L2Monitor.scanner_scan_phase
            simp [haf]
          rw [he]
          obtain ⟨hu1, hu2⟩ := hstep txs s hs
          have hr := ih _ hu1
          exact ⟨hr.1, by rw [hr.2, hu2]⟩

/-- Mapping the cursor write over a row list that holds a sentinel row
makes the first sentinel hit carry the written block number. -/
theorem find?_map_cursor_write (l : List TrackedBatch) (n : Nat)
    (hs : l.any (fun r => r.tx_hash == "monitoring_state") = true) :
    ∃ r, (l.map (fun x => if x.tx_hash == "monitoring_state" then
        { x with last_analyzed_block := some n } else x)).find?
      (fun x => x.tx_hash == "monitoring_state") = some r
      ∧ r.last_analyzed_block = some n := by
  induction l with
  | nil => simp at hs
  | cons x t ih =>
      by_cases hx : (x.tx_hash == "monitoring_state") = true
      · refine ⟨{ x with last_analyzed_block := some n }, ?_, rfl⟩
        rw [List.map_cons, if_pos hx]
        exact List.find?_cons_of_pos _ hx
      · have hs' : t.any (fun r => r.tx_hash == "monitoring_state") = true := by
          simp only [List.any_cons, hx, Bool.false_or] at hs
          simpa using hs
        obtain ⟨r, hr1, hr2⟩ := ih hs'
        refine ⟨r, ?_, hr2⟩
        rw [List.map_cons, if_neg hx]
        rw [List.find?_cons_of_neg _ (by simpa using hx)]
        exact hr1

/-- Setting the cursor and reading it back yields the written value when a
sentinel row exists; the sentinel row also survives the write. -/
theorem cursor_update_last_analyzed_block (s : DbState) (n : Nat)
    (hs : Database.is_tx_already_tracked s "monitoring_state" = true) :
    Database.get_last_analyzed_block (Database.update_last_analyzed_block s n) = n
    ∧ Database.is_tx_already_tracked (Database.update_last_analyzed_block s n)
        "monitoring_state" = true := by
  unfold Database.is_tx_already_tracked at hs ⊢
  unfold Database.get_last_analyzed_block Database.update_last_analyzed_block
  constructor
  · obtain ⟨r, hr1, hr2⟩ := find?_map_cursor_write s.l2_batches_txs n hs
    simp only [hr1, hr2, Option.getD_some]
  · rw [List.any_eq_true] at hs ⊢
    obtain ⟨r, hr, hrh⟩ := hs
    refine ⟨if r.tx_hash == "monitoring_state" then
      { r with last_analyzed_block := some n } else r, List.mem_map.mpr ⟨r, hr, rfl⟩, ?_⟩
    simp [hrh]

/-- A full scanner cycle sets the cursor to the head observed in that
cycle and keeps the sentinel row. -/
theorem cursor_scanner_cycle (c : CycleInput) (s : DbState)
    (hs : Database.is_tx_already_tracked s "monitoring_state" = true) :
    Database.get_last_analyzed_block (L2Monitor.scanner_cycle c s) = c.head
    ∧ Database.is_tx_already_tracked (L2Monitor.scanner_cycle c s)
        "monitoring_state" = true := by
  have h1 := cursor_scanner_scan_phase c.now c.fetches s hs
  have h2 := cursor_update_last_analyzed_block
    (L2Monitor.scanner_scan_phase c.now c.fetches s) c.head h1.1
  exact ⟨h2.1, h2.2⟩

/-- Cursor value after a run of cycles: the head of the last cycle, or the
initial cursor when no cycle ran. -/
theorem cursor_run_cycles (cs : List CycleInput) (s : DbState)
    (hs : Database.is_tx_already_tracked s "monitoring_state" = true) :
    Database.get_last_analyzed_block (L2Monitor.run_cycles s cs) =
      (cs.map (fun c => c.head)).getLastD (Database.get_last_analyzed_block s)
    ∧ Database.is_tx_already_tracked (L2Monitor.run_cycles s cs)
        "monitoring_state" = true := by
  induction cs generalizing s with
  | nil => exact ⟨rfl, hs⟩
  | cons c t ih =>
      have hc := cursor_scanner_cycle c s hs
      have he : L2Monitor.run_cycles s (c :: t) =
          L2Monitor.run_cycles (L2Monitor.scanner_cycle c s) t := rfl
      rw [he]
      obtain ⟨e1, e2⟩ := ih (L2Monitor.scanner_cycle c s) hc.2
      refine ⟨?_, e2⟩
      rw [e1, hc.1, List.map_cons, List.getLastD_cons]

/-- Boolean check that a list of block numbers never decreases. -/
def nondecreasingB : List Nat → Bool
  | [] => true
  | [_] => true
  | a :: b :: t => decide (a ≤ b) && nondecreasingB (b :: t)

/-- For a non-empty non-decreasing list the last element is the maximum. -/
theorem getLastD_eq_foldl_max (a : Nat) (t : List Nat) (d : Nat)
    (hm : nondecreasingB (a :: t) = true) :
    (a :: t).foldl max 0 = (a :: t).getLastD d := by
  have key : ∀ (t : List Nat) (a : Nat), nondecreasingB (a :: t) = true →
      t.foldl max a = (a :: t).getLastD d := by
    intro t
    induction t with
    | nil => intro a _; rfl
    | cons b t ih =>
        intro a hm
        have hab : a ≤ b ∧ nondecreasingB (b :: t) = true := by
          unfold nondecreasingB at hm
          simp only [Bool.and_eq_true, decide_eq_true_eq] at hm
          exact hm
        have hgl : (a :: b :: t).getLastD d = (b :: t).getLastD d := by
          simp [List.getLastD_cons]
        rw [hgl, List.foldl_cons, Nat.max_eq_right hab.1]
        exact ih b hab.2
  have := key t a hm
  simpa [List.foldl_cons, Nat.zero_max] using this

/-- C5 counterexample: with a fresh database (cursor 0), a cycle
observing head 10 followed by a cycle observing head 5 leaves the cursor
at 5: the cursor decreased from 10 to 5 and does not equal the maximum
head 10 observed across the two cycles, because start_monitoring sets it
unconditionally to the head of the current cycle. -/
theorem C5_counterexample :
    Database.get_last_analyzed_block
      (L2Monitor.scanner_cycle ⟨0, 10, []⟩
        (Database.sqlite_database_new 0 Database.emptyDb)) = 10
    ∧ Database.get_last_analyzed_block
        (L2Monitor.scanner_cycle ⟨0, 5, []⟩
          (L2Monitor.scanner_cycle ⟨0, 10, []⟩
            (Database.sqlite_database_new 0 Database.emptyDb))) = 5
    ∧ ¬ (10 : Nat) ≤ 5
    ∧ (5 : Nat) ≠ max 10 5 := by
  refine ⟨by decide, by decide, by decide, by decide⟩

/-- C5 amended: the cursor is mutated only at the end of a cycle (the
scan phase leaves it unchanged), each cycle sets it unconditionally to
the head observed in that cycle, and after a run of cycles it equals the
head of the last cycle; it is non-decreasing and equal to the maximum
observed head exactly when the observed head sequence itself never
decreases, as assumed here. -/
theorem C5_cursor (s : DbState) (c : CycleInput) (cs : List CycleInput)
    (hs : Database.is_tx_already_tracked s "monitoring_state" = true)
    (hm : nondecreasingB ((c :: cs).map (fun x => x.head)) = true) :
    Database.get_last_analyzed_block
      (L2Monitor.scanner_scan_phase c.now c.fetches s) =
        Database.get_last_analyzed_block s
    ∧ Database.get_last_analyzed_block (L2Monitor.scanner_cycle c s) = c.head
    ∧ Database.get_last_analyzed_block (L2Monitor.run_cycles s (c :: cs)) =
        ((c :: cs).map (fun x => x.head)).foldl max 0 := by
  refine ⟨(cursor_scanner_scan_phase c.now c.fetches s hs).2,
    (cursor_scanner_cycle c s hs).1, ?_⟩
  rw [(cursor_run_cycles (c :: cs) s hs).1]
  have hm' : nondecreasingB (c.head :: cs.map (fun x => x.head)) = true := by
    simpa using hm
  have := (getLastD_eq_foldl_max c.head (cs.map (fun x => x.head))
    (Database.get_last_analyzed_block s) hm').symm
  simpa using this

/-- Witness for C5 on a concrete two-cycle run with non-decreasing
heads. -/
theorem C5_cursor_witness :
    Database.is_tx_already_tracked (Database.sqlite_database_new 0 Database.emptyDb)
      "monitoring_state" = true
    ∧ nondecreasingB (([⟨0, 3, []⟩, ⟨0, 8, []⟩] : List CycleInput).map
        (fun x => x.head)) = true
    ∧ Database.get_last_analyzed_block
        (L2Monitor.run_cycles (Database.sqlite_database_new 0 Database.emptyDb)
          [⟨0, 3, []⟩, ⟨0, 8, []⟩]) =
        (([⟨0, 3, []⟩, ⟨0, 8, []⟩] : List CycleInput).map
          (fun x => x.head)).foldl max 0 :=
  ⟨by decide, by decide,
    (C5_cursor (Database.sqlite_database_new 0 Database.emptyDb)
      ⟨0, 3, []⟩ [⟨0, 8, []⟩] (by decide) (by decide)).2.2⟩

/-- The scan phase of a cycle in which the per-address transaction query
failed for every monitored address changes nothing. -/
theorem scan_phase_all_fetches_fail (now : Int) (addrs : List String)
    (s : DbState) :
    L2Monitor.scanner_scan_phase now (addrs.map (fun a => ⟨a, none⟩)) s = s := by
  induction addrs with
  | nil => rfl
  | cons a t ih =>
      have he : L2Monitor.scanner_scan_phase now
          ((a :: t).map (fun a => (⟨a, none⟩ : AddressFetch))) s =
          L2Monitor.scanner_scan_phase now (t.map (fun a => ⟨a, none⟩)) s := by
        unfold L2Monitor.scanner_scan_phase
        simp
      rw [he, ih]

/-- C6 counterexample: starting from a fresh database with cursor 0, a
cycle in which the transaction query fails for every monitored address
still sets the cursor to the observed head 7 — the cycle is not skipped
and the window is declared scanned despite yielding no data. -/
theorem C6_counterexample :
    Database.get_last_analyzed_block (Database.sqlite_database_new 0 Database.emptyDb) = 0
    ∧ Database.get_last_analyzed_block
        (L2Monitor.scanner_cycle ⟨0, 7, [⟨"0xaa", none⟩, ⟨"0xbb", none⟩]⟩
          (Database.sqlite_database_new 0 Database.emptyDb)) = 7 := by
  exact ⟨by decide, by decide⟩

/-- C6 amended: a cycle whose per-address query fails for every address
performs no table writes, but still unconditionally advances the cursor
to the head observed in that cycle; the cursor stays unchanged only when
the chain-head fetch itself fails, which aborts start_monitoring before
the cycle body (not modelled as a completed cycle). -/
theorem C6_outage_cycle (now : Int) (head : Nat) (addrs : List String)
    (s : DbState)
    (hs : Database.is_tx_already_tracked s "monitoring_state" = true) :
    L2Monitor.scanner_cycle ⟨now, head, addrs.map (fun a => ⟨a, none⟩)⟩ s =
      Database.update_last_analyzed_block s head
    ∧ Database.get_last_analyzed_block
        (L2Monitor.scanner_cycle ⟨now, head, addrs.map (fun a => ⟨a, none⟩)⟩ s) = head
    ∧ (L2Monitor.scanner_cycle ⟨now, head, addrs.map (fun a => ⟨a, none⟩)⟩ s
        ).failed_transactions = s.failed_transactions
    ∧ (L2Monitor.scanner_cycle ⟨now, head, addrs.map (fun a => ⟨a, none⟩)⟩ s
        ).daily_batcher_stats = s.daily_batcher_stats := by
  have he : L2Monitor.scanner_cycle ⟨now, head, addrs.map (fun a => ⟨a, none⟩)⟩ s =
      Database.update_last_analyzed_block s head := by
    unfold L2Monitor.scanner_cycle
    rw [scan_phase_all_fetches_fail]
  refine ⟨he, ?_, ?_, ?_⟩
  · rw [he]
    exact (cursor_update_last_analyzed_block s head hs).1
  · rw [he]; rfl
  · rw [he]; rfl

/-- Witness for C6 on a concrete outage cycle. -/
theorem C6_outage_cycle_witness :
    Database.is_tx_already_tracked (Database.sqlite_database_new 3 Database.emptyDb)
      "monitoring_state" = true
    ∧ Database.get_last_analyzed_block
        (L2Monitor.scanner_cycle ⟨9, 12, ["0xaa"].map (fun a => ⟨a, none⟩)⟩
          (Database.sqlite_database_new 3 Database.emptyDb)) = 12 :=
  ⟨by decide,
    (C6_outage_cycle 9 12 ["0xaa"] (Database.sqlite_database_new 3 Database.emptyDb)
      (by decide)).2.1⟩

/-- C7 counterexample: in the scanner, when the analysis of a new
transaction succeeds but save_tracked_batch fails, the database is left
exactly as before — the computed result is dropped and no
FailedTransaction entry is created, so the store failure is not re-routed
through the retry path on the Scanner's save path. -/
theorem C7_counterexample :
    L2Monitor.scanner_process_tx 100 "0xB"
      ⟨"0xa", some ⟨true, 1, 2, 3, 4⟩, "", false⟩
      (Database.sqlite_database_new 0 Database.emptyDb) =
      Database.sqlite_database_new 0 Database.emptyDb
    ∧ Database.is_tx_in_failed_queue
        (L2Monitor.scanner_process_tx 100 "0xB"
          ⟨"0xa", some ⟨true, 1, 2, 3, 4⟩, "", false⟩
          (Database.sqlite_database_new 0 Database.emptyDb)) "0xa" = false
    ∧ Database.is_tx_already_tracked
        (L2Monitor.scanner_process_tx 100 "0xB"
          ⟨"0xa", some ⟨true, 1, 2, 3, 4⟩, "", false⟩
          (Database.sqlite_database_new 0 Database.emptyDb)) "0xa" = false := by
  exact ⟨by decide, by decide, by decide⟩

/-- C7 amended: only the Retry Queue Manager re-routes a failed
save_tracked_batch through the retry path, by updating the still-present
FailedTransaction entry with an incremented retry_count and a recomputed
next_retry_at; the Scanner's save path logs the error and drops the
result, leaving the database unchanged. -/
theorem C7_save_failure_paths (now : Int) (s : DbState)
    (f : FailedTransaction) (oracle : String → RetryOutcome)
    (addr : String) (o : TxOutcome) :
    (f.retry_count < RetryHandler.MAX_RETRY_ATTEMPTS →
      (oracle f.tx_hash).analysis.isSome = true →
      (oracle f.tx_hash).saveOk = false →
      RetryHandler.process_retry_entry now oracle s f =
        (Database.update_failed_transaction_retry now s f.tx_hash
          (f.retry_count + 1)
          (RetryHandler.calculate_next_retry_time now (f.retry_count + 1))
          RetryHandler.db_save_error_message, [f.tx_hash]))
    ∧ (o.analysis.isSome = true →
      o.saveOk = false →
      Database.is_tx_already_tracked s o.tx_hash = false →
      Database.is_tx_in_failed_queue s o.tx_hash = false →
      L2Monitor.scanner_process_tx now addr o s = s) := by
  constructor
  · intro hrc han hsv
    obtain ⟨res, hres⟩ := Option.isSome_iff_exists.mp han
    unfold RetryHandler.process_retry_entry
    rw [if_neg (by omega)]
    rw [hres]
    have : Database.save_tracked_batch (oracle f.tx_hash).saveOk s
        (RetryHandler.retry_tracked_batch now f res) = none := by
      unfold Database.save_tracked_batch
      rw [hsv]
      simp
    simp [this]
  · intro han hsv htr hfq
    obtain ⟨res, hres⟩ := Option.isSome_iff_exists.mp han
    unfold L2Monitor.scanner_process_tx
    rw [if_neg (by simp [htr]), if_neg (by simp [hfq]), hres]
    have : Database.save_tracked_batch o.saveOk s
        { tx_hash := o.tx_hash, batcher_address := addr,
          analysis_result := res, timestamp := now,
          last_analyzed_block := none } = none := by
      unfold Database.save_tracked_batch
      rw [hsv]
      simp
    simp [this]

/-- Witness for C7 on concrete states for both branches. -/
theorem C7_save_failure_paths_witness :
    ((1 : Int) < RetryHandler.MAX_RETRY_ATTEMPTS ∧
      RetryHandler.process_retry_entry 100
        (fun _ => ⟨some ⟨true, 1, 2, 3, 4⟩, "", false⟩) dbWitness
        { tx_hash := "0xa", batcher_address := "0xb", error_message := "boom",
          retry_count := 1, next_retry_at := 0, first_failed_at := 0,
          last_attempted_at := 0 } =
        (Database.update_failed_transaction_retry 100 dbWitness "0xa" 2
          (RetryHandler.calculate_next_retry_time 100 2)
          RetryHandler.db_save_error_message, ["0xa"]))
    ∧ L2Monitor.scanner_process_tx 100 "0xB"
        ⟨"0xc", some ⟨true, 1, 2, 3, 4⟩, "", false⟩ dbWitness = dbWitness := by
  constructor
  · refine ⟨by decide, ?_⟩
    exact (C7_save_failure_paths 100 dbWitness
      { tx_hash := "0xa", batcher_address := "0xb", error_message := "boom",
        retry_count := 1, next_retry_at := 0, first_failed_at := 0,
        last_attempted_at := 0 }
      (fun _ => ⟨some ⟨true, 1, 2, 3, 4⟩, "", false⟩) "0xB"
      ⟨"0xc", some ⟨true, 1, 2, 3, 4⟩, "", false⟩).1
      (by decide) (by decide) (by decide)
  · exact (C7_save_failure_paths 100 dbWitness
      { tx_hash := "0xa", batcher_address := "0xb", error_message := "boom",
        retry_count := 1, next_retry_at := 0, first_failed_at := 0,
        last_attempted_at := 0 }
      (fun _ => ⟨some ⟨true, 1, 2, 3, 4⟩, "", false⟩) "0xB"
      ⟨"0xc", some ⟨true, 1, 2, 3, 4⟩, "", false⟩).2
      (by decide) (by decide) (by decide) (by decide)

/-- Hashes currently stored in the l2_batches_txs table. -/
def trackedKeys (s : DbState) : List String :=
  s.l2_batches_txs.map (fun r => r.tx_hash)

/-- Hashes currently stored in the failed_transactions table. -/
def failedKeys (s : DbState) : List String :=
  s.failed_transactions.map (fun f => f.tx_hash)

/-- Mutual-exclusion invariant of the data model: no hash is in both
tables. -/
def MutexInv (s : DbState) : Prop :=
  ∀ r ∈ s.l2_batches_txs, ∀ f ∈ s.failed_transactions, r.tx_hash ≠ f.tx_hash

/-- No-duplication invariant: each table keys its rows uniquely by hash,
as the UNIQUE constraints require. -/
def NodupInv (s : DbState) : Prop :=
  (trackedKeys s).Nodup ∧ (failedKeys s).Nodup

/-- Conjunction of the two data-model invariants. -/
def DbInv (s : DbState) : Prop := MutexInv s ∧ NodupInv s

instance (s : DbState) : Decidable (MutexInv s) := by
  unfold MutexInv
  infer_instance

instance (s : DbState) : Decidable (NodupInv s) := by
  unfold NodupInv
  infer_instance

instance (s : DbState) : Decidable (DbInv s) := by
  unfold DbInv
  infer_instance

/-- Membership in the failed table as a key statement. -/
theorem is_tx_in_failed_queue_iff (s : DbState) (h : String) :
    Database.is_tx_in_failed_queue s h = true ↔ h ∈ failedKeys s := by
  unfold Database.is_tx_in_failed_queue failedKeys
  rw [List.any_eq_true]
  constructor
  · rintro ⟨f, hf, hfh⟩
    exact List.mem_map.mpr ⟨f, hf, beq_iff_eq.mp hfh⟩
  · intro hm
    obtain ⟨f, hf, hfh⟩ := List.mem_map.mp hm
    exact ⟨f, hf, beq_iff_eq.mpr hfh⟩

/-- Membership in the tracked table as a key statement. -/
theorem is_tx_already_tracked_iff (s : DbState) (h : String) :
    Database.is_tx_already_tracked s h = true ↔ h ∈ trackedKeys s := by
  unfold Database.is_tx_already_tracked trackedKeys
  rw [List.any_eq_true]
  constructor
  · rintro ⟨r, hr, hrh⟩
    exact List.mem_map.mpr ⟨r, hr, beq_iff_eq.mp hrh⟩
  · intro hm
    obtain ⟨r, hr, hrh⟩ := List.mem_map.mp hm
    exact ⟨r, hr, beq_iff_eq.mpr hrh⟩

/-- The db-level retry update keeps the key list of the failed table
unchanged. -/
theorem update_failed_transaction_retry_keys (now : Int) (s : DbState)
    (tx : String) (rc : Int) (nra : Int) (e : String) :
    failedKeys (Database.update_failed_transaction_retry now s tx rc nra e) =
      failedKeys s
    ∧ trackedKeys (Database.update_failed_transaction_retry now s tx rc nra e) =
      trackedKeys s := by
  constructor
  · unfold failedKeys Database.update_failed_transaction_retry
    rw [List.map_map]
    apply List.map_congr_left
    intro f _
    by_cases hf : f.tx_hash = tx <;> simp [hf]
  · rfl

/-- Mapping a key projection commutes with filtering on the key. -/
theorem map_key_filter {α : Type} (key : α → String) (p : String → Bool)
    (l : List α) :
    (l.filter (fun a => p (key a))).map key = (l.map key).filter p := by
  induction l with
  | nil => rfl
  | cons a t ih =>
      by_cases ha : p (key a) = true <;>
        simp [List.filter_cons, ha, ih]

/-- Removal filters the failed key list. -/
theorem remove_failed_transaction_keys (s : DbState) (tx : String) :
    failedKeys (Database.remove_failed_transaction s tx) =
      (failedKeys s).filter (fun h => h != tx)
    ∧ trackedKeys (Database.remove_failed_transaction s tx) = trackedKeys s := by
  constructor
  · unfold failedKeys Database.remove_failed_transaction
    exact map_key_filter (fun f => f.tx_hash) (fun h => h != tx)
      s.failed_transactions
  · rfl

/-- Insertion appends the new key to the failed key list. -/
theorem save_failed_transaction_keys (s : DbState) (f : FailedTransaction) :
    failedKeys (Database.save_failed_transaction s f) =
      failedKeys s ++ [f.tx_hash]
    ∧ trackedKeys (Database.save_failed_transaction s f) = trackedKeys s := by
  constructor
  · unfold failedKeys Database.save_failed_transaction
    simp
  · rfl

/-- Mutual exclusion stated on key lists. -/
theorem MutexInv_iff_keys (s : DbState) :
    MutexInv s ↔ ∀ h ∈ trackedKeys s, h ∉ failedKeys s := by
  unfold MutexInv trackedKeys failedKeys
  constructor
  · intro hm h hh hf
    obtain ⟨r, hr, hrh⟩ := List.mem_map.mp hh
    obtain ⟨f, hf2, hfh⟩ := List.mem_map.mp hf
    exact hm r hr f hf2 (hrh.trans hfh.symm)
  · intro hk r hr f hf he
    exact hk r.tx_hash (List.mem_map.mpr ⟨r, hr, rfl⟩)
      (he ▸ List.mem_map.mpr ⟨f, hf, rfl⟩)

/-- A state whose tracked and failed key lists coincide with those of an
invariant-satisfying state satisfies the invariant as well. -/
theorem DbInv_of_keys_eq (s t : DbState)
    (hf : failedKeys t = failedKeys s) (ht : trackedKeys t = trackedKeys s)
    (h : DbInv s) : DbInv t := by
  obtain ⟨hm, hn1, hn2⟩ := h
  refine ⟨?_, ?_, ?_⟩
  · rw [MutexInv_iff_keys, hf, ht]
    exact (MutexInv_iff_keys s).mp hm
  · rw [ht]; exact hn1
  · rw [hf]; exact hn2

/-- The invariant survives the db-level retry update. -/
theorem DbInv_update_failed_transaction_retry (now : Int) (s : DbState)
    (tx : String) (rc nra : Int) (e : String) (h : DbInv s) :
    DbInv (Database.update_failed_transaction_retry now s tx rc nra e) := by
  obtain ⟨h1, h2⟩ := update_failed_transaction_retry_keys now s tx rc nra e
  exact DbInv_of_keys_eq s _ h1 h2 h

/-- The invariant survives a removal from the failed queue. -/
theorem DbInv_remove_failed_transaction (s : DbState) (tx : String)
    (h : DbInv s) : DbInv (Database.remove_failed_transaction s tx) := by
  obtain ⟨hm, hn1, hn2⟩ := h
  obtain ⟨h1, h2⟩ := remove_failed_transaction_keys s tx
  refine ⟨?_, ?_, ?_⟩
  · rw [MutexInv_iff_keys, h1, h2]
    intro a ha hmem
    exact (MutexInv_iff_keys s).mp hm a ha (List.mem_of_mem_filter hmem)
  · rw [h2]; exact hn1
  · rw [h1]; exact hn2.filter _

/-- The invariant survives an insertion into the failed queue whose key is
in neither table. -/
theorem DbInv_save_failed_transaction (s : DbState) (f : FailedTransaction)
    (h : DbInv s) (h1 : f.tx_hash ∉ trackedKeys s)
    (h2 : f.tx_hash ∉ failedKeys s) :
    DbInv (Database.save_failed_transaction s f) := by
  obtain ⟨hm, hn1, hn2⟩ := h
  obtain ⟨k1, k2⟩ := save_failed_transaction_keys s f
  refine ⟨?_, ?_, ?_⟩
  · rw [MutexInv_iff_keys, k1, k2]
    intro a ha hmem
    rcases List.mem_append.mp hmem with hmem | hmem
    · exact (MutexInv_iff_keys s).mp hm a ha hmem
    · rw [List.mem_singleton] at hmem
      exact h1 (hmem ▸ ha)
  · rw [k2]; exact hn1
  · rw [k1, List.nodup_append]
    refine ⟨hn2, List.nodup_singleton _, ?_⟩
    intro b hb hbk
    rw [List.mem_singleton] at hbk
    subst hbk
    exact h2 hb

/-- The invariant survives a successful save_tracked_batch whose key is
not in the failed table. -/
theorem DbInv_save_tracked_batch (ok : Bool) (s s' : DbState)
    (batch : TrackedBatch)
    (hs : Database.save_tracked_batch ok s batch = some s')
    (h : DbInv s) (h2 : batch.tx_hash ∉ failedKeys s) : DbInv s' := by
  obtain ⟨he, -, hnt⟩ := save_tracked_batch_eq_some ok s batch s' hs
  obtain ⟨hm, hn1, hn2⟩ := h
  have k1 : trackedKeys s' = trackedKeys s ++ [batch.tx_hash] := by
    rw [he]; unfold trackedKeys; simp
  have k2 : failedKeys s' = failedKeys s := by rw [he]; rfl
  have hnt' : batch.tx_hash ∉ trackedKeys s := by
    rw [← is_tx_already_tracked_iff] at *
    simp [hnt]
  refine ⟨?_, ?_, ?_⟩
  · rw [MutexInv_iff_keys, k1, k2]
    intro a ha hmem
    rcases List.mem_append.mp ha with ha | ha
    · exact (MutexInv_iff_keys s).mp hm a ha hmem
    · rw [List.mem_singleton] at ha
      exact h2 (ha ▸ hmem)
  · rw [k1, List.nodup_append]
    refine ⟨hn1, List.nodup_singleton _, ?_⟩
    intro b hb hbk
    rw [List.mem_singleton] at hbk
    subst hbk
    exact hnt' hb
  · rw [k2]; exact hn2

/-- The scanner's per-transaction body preserves the data-model
invariant, whatever the analysis and save outcomes. -/
theorem scanner_process_tx_DbInv (now : Int) (addr : String) (o : TxOutcome)
    (s : DbState) (h : DbInv s) :
    DbInv (L2Monitor.scanner_process_tx now addr o s) := by
  unfold L2Monitor.scanner_process_tx
  split
  · exact h
  next htr =>
  split
  · exact h
  next hfq =>
  rw [Bool.not_eq_true] at htr hfq
  have htr' : o.tx_hash ∉ trackedKeys s := by
    rw [← is_tx_already_tracked_iff]; simp [htr]
  have hfq' : o.tx_hash ∉ failedKeys s := by
    rw [← is_tx_in_failed_queue_iff]; simp [hfq]
  split
  · unfold RetryHandler.save_failed_transaction
    rw [if_neg (by simp [hfq])]
    exact DbInv_save_failed_transaction s _ h htr' hfq'
  next res han =>
    split
    · next s2 hsv => exact DbInv_save_tracked_batch o.saveOk s s2 _ hsv h hfq'
    · exact h

/-- The retry loop's per-entry body preserves the data-model invariant,
whatever the entry and the analysis and save outcomes. -/
theorem process_retry_entry_DbInv (now : Int) (oracle : String → RetryOutcome)
    (s : DbState) (f : FailedTransaction) (h : DbInv s) :
    DbInv (RetryHandler.process_retry_entry now oracle s f).1 := by
  unfold RetryHandler.process_retry_entry
  split
  · exact DbInv_remove_failed_transaction s _ h
  split
  next res han =>
    split
    next s2 hsv =>
      obtain ⟨he, -, hnt⟩ := save_tracked_batch_eq_some _ s _ s2 hsv
      obtain ⟨hm, hn1, hn2⟩ := h
      have hnt2 : Database.is_tx_already_tracked s f.tx_hash = false := hnt
      have hnt' : f.tx_hash ∉ trackedKeys s := by
        rw [← is_tx_already_tracked_iff]
        simp [hnt2]
      have k1 : trackedKeys s2 = trackedKeys s ++ [f.tx_hash] := by
        rw [he]; unfold trackedKeys; simp [RetryHandler.retry_tracked_batch]
      have k2 : failedKeys s2 = failedKeys s := by rw [he]; rfl
      obtain ⟨r1, r2⟩ := remove_failed_transaction_keys s2 f.tx_hash
      refine ⟨?_, ?_, ?_⟩
      · show MutexInv (Database.remove_failed_transaction s2 f.tx_hash)
        rw [MutexInv_iff_keys, r1, r2, k1, k2]
        intro a ha hmem
        have hmem' := List.mem_of_mem_filter hmem
        rcases List.mem_append.mp ha with ha | ha
        · exact (MutexInv_iff_keys s).mp hm a ha hmem'
        · rw [List.mem_singleton] at ha
          subst ha
          have := List.of_mem_filter hmem
          simp at this
      · show (trackedKeys (Database.remove_failed_transaction s2 f.tx_hash)).Nodup
        rw [r2, k1, List.nodup_append]
        refine ⟨hn1, List.nodup_singleton _, ?_⟩
        intro b hb hbk
        rw [List.mem_singleton] at hbk
        subst hbk
        exact hnt' hb
      · show (failedKeys (Database.remove_failed_transaction s2 f.tx_hash)).Nodup
        rw [r1, k2]
        exact hn2.filter _
    · exact DbInv_update_failed_transaction_retry now s _ _ _ _ h
  · exact DbInv_update_failed_transaction_retry now s _ _ _ _ h

/-- After the scanner processes a genuinely new transaction, the hash
lands in exactly one table: the failed queue on analysis failure, the
tracked table on analysis success with a successful save. -/
theorem scanner_process_tx_post (now : Int) (addr : String) (o : TxOutcome)
    (s : DbState)
    (htr : Database.is_tx_already_tracked s o.tx_hash = false)
    (hfq : Database.is_tx_in_failed_queue s o.tx_hash = false) :
    (o.analysis = none →
      Database.is_tx_in_failed_queue
        (L2Monitor.scanner_process_tx now addr o s) o.tx_hash = true
      ∧ Database.is_tx_already_tracked
        (L2Monitor.scanner_process_tx now addr o s) o.tx_hash = false)
    ∧ (o.analysis.isSome = true → o.saveOk = true →
      Database.is_tx_already_tracked
        (L2Monitor.scanner_process_tx now addr o s) o.tx_hash = true
      ∧ Database.is_tx_in_failed_queue
        (L2Monitor.scanner_process_tx now addr o s) o.tx_hash = false) := by
  constructor
  · intro han
    have he : L2Monitor.scanner_process_tx now addr o s =
        Database.save_failed_transaction s
          { tx_hash := o.tx_hash, batcher_address := addr,
            error_message := o.error_message, retry_count := 0,
            next_retry_at := RetryHandler.calculate_next_retry_time now 0,
            first_failed_at := now, last_attempted_at := now } := by
      unfold L2Monitor.scanner_process_tx
      rw [if_neg (by simp [htr]), if_neg (by simp [hfq]), han]
      unfold RetryHandler.save_failed_transaction
      rw [if_neg (by simp [hfq])]
    rw [he]
    constructor
    · rw [is_tx_in_failed_queue_iff,
        (save_failed_transaction_keys s _).1]
      simp
    · rw [← Bool.not_eq_true, is_tx_already_tracked_iff,
        (save_failed_transaction_keys s _).2]
      rw [← is_tx_already_tracked_iff]
      simp [htr]
  · intro han hsv
    obtain ⟨res, hres⟩ := Option.isSome_iff_exists.mp han
    have hcond : (o.saveOk && !(Database.is_tx_already_tracked s o.tx_hash)) = true := by
      rw [hsv, htr]
      rfl
    have he : L2Monitor.scanner_process_tx now addr o s =
        { s with l2_batches_txs := s.l2_batches_txs ++
            [{ tx_hash := o.tx_hash, batcher_address := asciiLower addr,
               analysis_result := res, timestamp := now,
               last_analyzed_block := none }] } := by
      unfold L2Monitor.scanner_process_tx Database.save_tracked_batch
      rw [if_neg (by simp [htr]), if_neg (by simp [hfq]), hres]
      simp [hcond]
    rw [he]
    constructor
    · rw [is_tx_already_tracked_iff]
      unfold trackedKeys
      simp
    · rw [← Bool.not_eq_true, is_tx_in_failed_queue_iff]
      have : failedKeys { s with l2_batches_txs := s.l2_batches_txs ++
          [{ tx_hash := o.tx_hash, batcher_address := asciiLower addr,
             analysis_result := res, timestamp := now,
             last_analyzed_block := none }] } = failedKeys s := rfl
      rw [this, ← is_tx_in_failed_queue_iff]
      simp [hfq]

/-- After the retry loop processes one queue entry whose hash respects the
invariant, the hash lands in exactly one table — or in neither when the
entry is abandoned for exceeding the retry limit. -/
theorem process_retry_entry_post (now : Int) (oracle : String → RetryOutcome)
    (s : DbState) (f : FailedTransaction)
    (hf : Database.is_tx_in_failed_queue s f.tx_hash = true)
    (hinv : DbInv s) :
    (RetryHandler.MAX_RETRY_ATTEMPTS ≤ f.retry_count →
      Database.is_tx_already_tracked
        (RetryHandler.process_retry_entry now oracle s f).1 f.tx_hash = false
      ∧ Database.is_tx_in_failed_queue
        (RetryHandler.process_retry_entry now oracle s f).1 f.tx_hash = false)
    ∧ (f.retry_count < RetryHandler.MAX_RETRY_ATTEMPTS →
       (oracle f.tx_hash).analysis.isSome = true →
       (oracle f.tx_hash).saveOk = true →
      Database.is_tx_already_tracked
        (RetryHandler.process_retry_entry now oracle s f).1 f.tx_hash = true
      ∧ Database.is_tx_in_failed_queue
        (RetryHandler.process_retry_entry now oracle s f).1 f.tx_hash = false)
    ∧ (f.retry_count < RetryHandler.MAX_RETRY_ATTEMPTS →
       ((oracle f.tx_hash).analysis = none ∨ (oracle f.tx_hash).saveOk = false) →
      Database.is_tx_already_tracked
        (RetryHandler.process_retry_entry now oracle s f).1 f.tx_hash = false
      ∧ Database.is_tx_in_failed_queue
        (RetryHandler.process_retry_entry now oracle s f).1 f.tx_hash = true) := by
  have hmem : f.tx_hash ∈ failedKeys s := (is_tx_in_failed_queue_iff s _).mp hf
  have hntr : f.tx_hash ∉ trackedKeys s := by
    intro hc
    exact (MutexInv_iff_keys s).mp hinv.1 f.tx_hash hc hmem
  have hntrB : Database.is_tx_already_tracked s f.tx_hash = false := by
    rw [← Bool.not_eq_true, is_tx_already_tracked_iff]
    exact hntr
  refine ⟨?_, ?_, ?_⟩
  · intro hrc
    have he : (RetryHandler.process_retry_entry now oracle s f).1 =
        Database.remove_failed_transaction s f.tx_hash := by
      unfold RetryHandler.process_retry_entry
      rw [if_pos hrc]
    rw [he]
    obtain ⟨r1, r2⟩ := remove_failed_transaction_keys s f.tx_hash
    constructor
    · rw [← Bool.not_eq_true, is_tx_already_tracked_iff, r2]
      exact hntr
    · rw [← Bool.not_eq_true, is_tx_in_failed_queue_iff, r1]
      intro hc
      have := List.of_mem_filter hc
      simp at this
  · intro hrc han hsv
    obtain ⟨res, hres⟩ := Option.isSome_iff_exists.mp han
    have hcond : ((oracle f.tx_hash).saveOk &&
        !(Database.is_tx_already_tracked s
          (RetryHandler.retry_tracked_batch now f res).tx_hash)) = true := by
      have : (RetryHandler.retry_tracked_batch now f res).tx_hash = f.tx_hash := rfl
      rw [this, hsv, hntrB]
      rfl
    have he : (RetryHandler.process_retry_entry now oracle s f).1 =
        Database.remove_failed_transaction
          { s with l2_batches_txs := s.l2_batches_txs ++
              [{ tx_hash := f.tx_hash,
                 batcher_address := asciiLower f.batcher_address,
                 analysis_result := res, timestamp := now,
                 last_analyzed_block := none }] } f.tx_hash := by
      unfold RetryHandler.process_retry_entry Database.save_tracked_batch
      rw [if_neg (by omega), hres]
      simp only [hcond, if_pos]
      rfl
    rw [he]
    set s2 : DbState := { s with l2_batches_txs := s.l2_batches_txs ++
        [{ tx_hash := f.tx_hash, batcher_address := asciiLower f.batcher_address,
           analysis_result := res, timestamp := now,
           last_analyzed_block := none }] } with hs2
    obtain ⟨r1, r2⟩ := remove_failed_transaction_keys s2 f.tx_hash
    constructor
    · rw [is_tx_already_tracked_iff, r2]
      have : trackedKeys s2 = trackedKeys s ++ [f.tx_hash] := by
        rw [hs2]; unfold trackedKeys; simp
      rw [this]
      simp
    · rw [← Bool.not_eq_true, is_tx_in_failed_queue_iff, r1]
      intro hc
      have := List.of_mem_filter hc
      simp at this
  · intro hrc hor
    have he : (RetryHandler.process_retry_entry now oracle s f).1 =
        Database.update_failed_transaction_retry now s f.tx_hash
          (f.retry_count + 1)
          (RetryHandler.calculate_next_retry_time now (f.retry_count + 1))
          (match (oracle f.tx_hash).analysis with
           | some _ => RetryHandler.db_save_error_message
           | none => (oracle f.tx_hash).error_message) := by
      unfold RetryHandler.process_retry_entry
      rw [if_neg (by omega)]
      rcases hor with han | hsv
      · rw [han]
      · cases hres : (oracle f.tx_hash).analysis with
        | none => rfl
        | some res =>
            have hnone : Database.save_tracked_batch (oracle f.tx_hash).saveOk s
                (RetryHandler.retry_tracked_batch now f res) = none := by
              unfold Database.save_tracked_batch
              rw [hsv]
              simp
            simp only [hres, hnone]
    rw [he]
    obtain ⟨u1, u2⟩ := update_failed_transaction_retry_keys now s f.tx_hash
      (f.retry_count + 1)
      (RetryHandler.calculate_next_retry_time now (f.retry_count + 1))
      (match (oracle f.tx_hash).analysis with
       | some _ => RetryHandler.db_save_error_message
       | none => (oracle f.tx_hash).error_message)
    constructor
    · rw [← Bool.not_eq_true, is_tx_already_tracked_iff, u2]
      exact hntr
    · rw [is_tx_in_failed_queue_iff, u1]
      exact hmem

/-- The whole retry pass preserves the data-model invariant. -/
theorem process_retry_queue_DbInv (now : Int) (oracle : String → RetryOutcome)
    (s : DbState) (h : DbInv s) :
    DbInv (RetryHandler.process_retry_queue now oracle s).1 := by
  unfold RetryHandler.process_retry_queue
  generalize Database.get_failed_transactions_ready_for_retry now s = l
  have key : ∀ (l : List FailedTransaction) (acc : DbState × List String),
      DbInv acc.1 →
      DbInv (l.foldl (fun acc f =>
        let r := RetryHandler.process_retry_entry now oracle acc.1 f
        (r.1, acc.2 ++ r.2)) acc).1 := by
    intro l
    induction l with
    | nil => exact fun acc ha => ha
    | cons g t ih =>
        intro acc ha
        exact ih _ (process_retry_entry_DbInv now oracle acc.1 g ha)
  exact key l (s, []) h

/-- C1 counterexample: a retry pass over a database holding the failed
transaction 0xa, whose re-analysis and save both succeed, passes through
the intermediate state between the save_tracked_batch call and the
remove_failed_transaction call in which the hash 0xa is simultaneously a
member of both the l2_batches_txs table and the failed_transactions
table, so the mutual exclusion does not hold at every moment. -/
theorem C1_counterexample :
    ∃ m, RetryHandler.retry_mid_state 100
        (fun _ => ⟨some ⟨true, 1, 2, 3, 4⟩, "", true⟩) dbWitness
        { tx_hash := "0xa", batcher_address := "0xb", error_message := "boom",
          retry_count := 1, next_retry_at := 0, first_failed_at := 0,
          last_attempted_at := 0 } = some m
      ∧ Database.is_tx_already_tracked m "0xa" = true
      ∧ Database.is_tx_in_failed_queue m "0xa" = true := by
  refine ⟨_, rfl, by decide, by decide⟩

/-- C1 amended: at the boundaries of the per-transaction scanner step and
the per-entry retry step (and hence after completed scan and retry
passes), a tx_hash is in at most one of the two tables and neither table
holds duplicates; a processed hash ends in exactly one table (the failed
queue on analysis failure or save failure, the tracked table on success;
an abandoned entry in neither); the exclusion is transient only inside
the retry success path, between save_tracked_batch and
remove_failed_transaction, as the counterexample shows. -/
theorem C1_exclusion (now : Int) (addr : String) (o : TxOutcome)
    (oracle : String → RetryOutcome) (s : DbState) (f : FailedTransaction)
    (hinv : DbInv s) :
    DbInv (L2Monitor.scanner_process_tx now addr o s)
    ∧ DbInv (RetryHandler.process_retry_entry now oracle s f).1
    ∧ DbInv (RetryHandler.process_retry_queue now oracle s).1
    ∧ (Database.is_tx_already_tracked s o.tx_hash = false →
       Database.is_tx_in_failed_queue s o.tx_hash = false →
       (o.analysis = none →
         Database.is_tx_in_failed_queue
           (L2Monitor.scanner_process_tx now addr o s) o.tx_hash = true
         ∧ Database.is_tx_already_tracked
           (L2Monitor.scanner_process_tx now addr o s) o.tx_hash = false)
       ∧ (o.analysis.isSome = true → o.saveOk = true →
         Database.is_tx_already_tracked
           (L2Monitor.scanner_process_tx now addr o s) o.tx_hash = true
         ∧ Database.is_tx_in_failed_queue
           (L2Monitor.scanner_process_tx now addr o s) o.tx_hash = false))
    ∧ (Database.is_tx_in_failed_queue s f.tx_hash = true →
       (RetryHandler.MAX_RETRY_ATTEMPTS ≤ f.retry_count →
         Database.is_tx_already_tracked
           (RetryHandler.process_retry_entry now oracle s f).1 f.tx_hash = false
         ∧ Database.is_tx_in_failed_queue
           (RetryHandler.process_retry_entry now oracle s f).1 f.tx_hash = false)
       ∧ (f.retry_count < RetryHandler.MAX_RETRY_ATTEMPTS →
          (oracle f.tx_hash).analysis.isSome = true →
          (oracle f.tx_hash).saveOk = true →
         Database.is_tx_already_tracked
           (RetryHandler.process_retry_entry now oracle s f).1 f.tx_hash = true
         ∧ Database.is_tx_in_failed_queue
           (RetryHandler.process_retry_entry now oracle s f).1 f.tx_hash = false)
       ∧ (f.retry_count < RetryHandler.MAX_RETRY_ATTEMPTS →
          ((oracle f.tx_hash).analysis = none ∨ (oracle f.tx_hash).saveOk = false) →
         Database.is_tx_already_tracked
           (RetryHandler.process_retry_entry now oracle s f).1 f.tx_hash = false
         ∧ Database.is_tx_in_failed_queue
           (RetryHandler.process_retry_entry now oracle s f).1 f.tx_hash = true)) := by
  refine ⟨scanner_process_tx_DbInv now addr o s hinv,
    process_retry_entry_DbInv now oracle s f hinv,
    process_retry_queue_DbInv now oracle s hinv, ?_, ?_⟩
  · intro htr hfq
    exact scanner_process_tx_post now addr o s htr hfq
  · intro hf
    exact process_retry_entry_post now oracle s f hf hinv

/-- Witness for C1 on a concrete state: a new transaction processed by
the scanner with failing analysis lands exactly in the failed queue. -/
theorem C1_exclusion_witness :
    DbInv dbWitness ∧
    Database.is_tx_in_failed_queue
      (L2Monitor.scanner_process_tx 100 "0xB" ⟨"0xc", none, "boom", true⟩
        dbWitness) "0xc" = true
    ∧ Database.is_tx_already_tracked
      (L2Monitor.scanner_process_tx 100 "0xB" ⟨"0xc", none, "boom", true⟩
        dbWitness) "0xc" = false := by
  refine ⟨by decide, ?_⟩
  exact ((C1_exclusion 100 "0xB" ⟨"0xc", none, "boom", true⟩
      (fun _ => ⟨none, "", true⟩) dbWitness
      { tx_hash := "0xa", batcher_address := "0xb", error_message := "boom",
        retry_count := 1, next_retry_at := 0, first_failed_at := 0,
        last_attempted_at := 0 }
      (by decide)).2.2.2.1 (by decide) (by decide)).1 rfl

/-- Insertion by next_retry_at permutes with consing. -/
theorem perm_insertByRetryAt (f : FailedTransaction)
    (l : List FailedTransaction) :
    (Database.insertByRetryAt f l).Perm (f :: l) := by
  induction l with
  | nil => exact List.Perm.refl _
  | cons g t ih =>
      unfold Database.insertByRetryAt
      split
      · exact List.Perm.refl _
      · exact ((ih.cons g).trans (List.Perm.swap f g t))

/-- The ready-queue sort is a permutation. -/
theorem perm_sortByRetryAt (l : List FailedTransaction) :
    (Database.sortByRetryAt l).Perm l := by
  induction l with
  | nil => exact List.Perm.refl _
  | cons f t ih =>
      exact (perm_insertByRetryAt f (Database.sortByRetryAt t)).trans (ih.cons f)

/-- A ready entry is a row of the failed table. -/
theorem mem_of_mem_ready (now : Int) (s : DbState) (f : FailedTransaction)
    (hf : f ∈ Database.get_failed_transactions_ready_for_retry now s) :
    f ∈ s.failed_transactions := by
  unfold Database.get_failed_transactions_ready_for_retry at hf
  exact List.mem_of_mem_filter ((perm_sortByRetryAt _).mem_iff.mp hf)

/-- When the failed table has no duplicate keys, neither does the fetched
ready list. -/
theorem ready_keys_nodup (now : Int) (s : DbState)
    (h : (failedKeys s).Nodup) :
    ((Database.get_failed_transactions_ready_for_retry now s).map
      (fun f => f.tx_hash)).Nodup := by
  unfold Database.get_failed_transactions_ready_for_retry
  have hp := (perm_sortByRetryAt (s.failed_transactions.filter (fun f =>
    decide (f.next_retry_at ≤ now)))).map (fun f => f.tx_hash)
  rw [hp.nodup_iff]
  have hsub : (List.map (fun f : FailedTransaction => f.tx_hash)
      (List.filter (fun f => decide (f.next_retry_at ≤ now))
        s.failed_transactions)).Sublist
      (List.map (fun f : FailedTransaction => f.tx_hash) s.failed_transactions) :=
    List.Sublist.map _ (List.filter_sublist _)
  exact h.sublist hsub

/-- The per-entry retry body can only shrink the set of failed keys. -/
theorem process_retry_entry_keys_subset (now : Int)
    (oracle : String → RetryOutcome) (s : DbState) (f : FailedTransaction)
    (h : String)
    (hm : h ∈ failedKeys (RetryHandler.process_retry_entry now oracle s f).1) :
    h ∈ failedKeys s := by
  unfold RetryHandler.process_retry_entry at hm
  split at hm
  · rw [(remove_failed_transaction_keys s _).1] at hm
    exact List.mem_of_mem_filter hm
  split at hm
  next res han =>
    split at hm
    next s2 hsv =>
      obtain ⟨he, -, -⟩ := save_tracked_batch_eq_some _ s _ s2 hsv
      rw [(remove_failed_transaction_keys s2 _).1] at hm
      have := List.mem_of_mem_filter hm
      rw [he] at this
      exact this
    · rw [(update_failed_transaction_retry_keys now s _ _ _ _).1] at hm
      exact hm
  · rw [(update_failed_transaction_retry_keys now s _ _ _ _).1] at hm
    exact hm

/-- The analysis log of the per-entry retry body: empty for an abandoned
entry, the entry's own hash otherwise. -/
theorem process_retry_entry_log (now : Int) (oracle : String → RetryOutcome)
    (s : DbState) (f : FailedTransaction) :
    (RetryHandler.process_retry_entry now oracle s f).2 =
      if RetryHandler.MAX_RETRY_ATTEMPTS ≤ f.retry_count then []
      else [f.tx_hash] := by
  unfold RetryHandler.process_retry_entry
  split
  · rfl
  · split
    · split <;> rfl
    · rfl

/-- An abandoned entry processed by the per-entry body deletes every row
holding its hash. -/
theorem process_retry_entry_abandons (now : Int)
    (oracle : String → RetryOutcome) (s : DbState) (f : FailedTransaction)
    (hrc : RetryHandler.MAX_RETRY_ATTEMPTS ≤ f.retry_count) :
    f.tx_hash ∉ failedKeys (RetryHandler.process_retry_entry now oracle s f).1 := by
  unfold RetryHandler.process_retry_entry
  rw [if_pos hrc]
  rw [(remove_failed_transaction_keys s _).1]
  intro hc
  have := List.of_mem_filter hc
  simp at this

/-- One step of the retry pass fold. -/
def retryStep (now : Int) (oracle : String → RetryOutcome)
    (acc : DbState × List String) (f : FailedTransaction) :
    DbState × List String :=
  let r := RetryHandler.process_retry_entry now oracle acc.1 f
  (r.1, acc.2 ++ r.2)

/-- The retry pass is the fold of its step over the fetched ready list. -/
theorem process_retry_queue_eq_foldl (now : Int)
    (oracle : String → RetryOutcome) (s : DbState) :
    RetryHandler.process_retry_queue now oracle s =
      (Database.get_failed_transactions_ready_for_retry now s).foldl
        (retryStep now oracle) (s, []) := rfl

/-- Folding the retry step can only shrink the set of failed keys. -/
theorem retry_fold_keys_subset (now : Int) (oracle : String → RetryOutcome)
    (l : List FailedTransaction) (acc : DbState × List String) (h : String)
    (hm : h ∈ failedKeys (l.foldl (retryStep now oracle) acc).1) :
    h ∈ failedKeys acc.1 := by
  induction l generalizing acc with
  | nil => exact hm
  | cons g t ih =>
      have h1 := ih (retryStep now oracle acc g) hm
      exact process_retry_entry_keys_subset now oracle acc.1 g h h1

/-- No hash enters the analysis log of a retry fold unless some processed
entry below the retry limit carries it. -/
theorem retry_fold_log_not_mem (now : Int) (oracle : String → RetryOutcome)
    (l : List FailedTransaction) (acc : DbState × List String) (h : String)
    (ha : h ∉ acc.2)
    (hl : ∀ g ∈ l, g.tx_hash = h →
      RetryHandler.MAX_RETRY_ATTEMPTS ≤ g.retry_count) :
    h ∉ (l.foldl (retryStep now oracle) acc).2 := by
  induction l generalizing acc with
  | nil => exact ha
  | cons g t ih =>
      refine ih _ ?_ (fun x hx => hl x (List.mem_cons_of_mem g hx))
      show h ∉ (retryStep now oracle acc g).2
      unfold retryStep
      simp only [List.mem_append]
      rintro (hc | hc)
      · exact ha hc
      · rw [process_retry_entry_log] at hc
        split at hc
        · simp at hc
        next hrc =>
          rw [List.mem_singleton] at hc
          exact hrc (hl g (List.mem_cons_self g t) hc.symm)

/-- After a retry fold that contains an entry carrying the hash — every
carrier being over the retry limit — the hash is gone from the failed
table. -/
theorem retry_fold_removes (now : Int) (oracle : String → RetryOutcome)
    (l : List FailedTransaction) (acc : DbState × List String) (h : String)
    (hl : ∀ g ∈ l, g.tx_hash = h →
      RetryHandler.MAX_RETRY_ATTEMPTS ≤ g.retry_count)
    (hin : h ∉ failedKeys acc.1 ∨ ∃ f ∈ l, f.tx_hash = h) :
    h ∉ failedKeys (l.foldl (retryStep now oracle) acc).1 := by
  induction l generalizing acc with
  | nil =>
      rcases hin with hin | ⟨f, hf, -⟩
      · exact fun hc => hin (retry_fold_keys_subset now oracle [] acc h hc)
      · simp at hf
  | cons g t ih =>
      by_cases hg : g.tx_hash = h
      · have hrc := hl g (List.mem_cons_self g t) hg
        have habs : h ∉ failedKeys (retryStep now oracle acc g).1 := by
          unfold retryStep
          rw [← hg]
          exact process_retry_entry_abandons now oracle acc.1 g hrc
        exact ih _ (fun x hx => hl x (List.mem_cons_of_mem g hx)) (Or.inl habs)
      · rcases hin with hin | ⟨f, hf, hfh⟩
        · have habs : h ∉ failedKeys (retryStep now oracle acc g).1 :=
            fun hc => hin (process_retry_entry_keys_subset now oracle acc.1 g h hc)
          exact ih _ (fun x hx => hl x (List.mem_cons_of_mem g hx)) (Or.inl habs)
        · rcases List.mem_cons.mp hf with rfl | hf2
          · exact absurd hfh hg
          · exact ih _ (fun x hx => hl x (List.mem_cons_of_mem g hx))
              (Or.inr ⟨f, hf2, hfh⟩)

/-- Failed-queue entry at the retry limit, used by the C3 witness. -/
def fC3 : FailedTransaction :=
  { tx_hash := "0xdead", batcher_address := "0xb", error_message := "boom",
    retry_count := 5, next_retry_at := 10, first_failed_at := 0,
    last_attempted_at := 0 }

/-- Database holding fC3 and one live entry, used by the C3 witness. -/
def dbC3 : DbState :=
  { l2_batches_txs := [Database.sentinel_row 0],
    failed_transactions :=
      [fC3,
       { tx_hash := "0xlive", batcher_address := "0xb", error_message := "e",
         retry_count := 1, next_retry_at := 20, first_failed_at := 0,
         last_attempted_at := 0 }],
    daily_batcher_stats := [] }

/-- C3: an entry fetched ready whose retry_count has reached
MAX_RETRY_ATTEMPTS (5) is removed from the failed queue during the pass
without its analysis being invoked, and on any later pass it is neither
analyzed nor present in the failed table again. -/
theorem C3_retry_limit (now now2 : Int) (oracle oracle2 : String → RetryOutcome)
    (s : DbState) (f : FailedTransaction)
    (hnd : (failedKeys s).Nodup)
    (hf : f ∈ Database.get_failed_transactions_ready_for_retry now s)
    (hmax : RetryHandler.MAX_RETRY_ATTEMPTS ≤ f.retry_count) :
    f.tx_hash ∉ (RetryHandler.process_retry_queue now oracle s).2
    ∧ f.tx_hash ∉ failedKeys (RetryHandler.process_retry_queue now oracle s).1
    ∧ f.tx_hash ∉ (RetryHandler.process_retry_queue now2 oracle2
        (RetryHandler.process_retry_queue now oracle s).1).2
    ∧ f.tx_hash ∉ failedKeys (RetryHandler.process_retry_queue now2 oracle2
        (RetryHandler.process_retry_queue now oracle s).1).1 := by
  have hinj := List.inj_on_of_nodup_map (ready_keys_nodup now s hnd)
  have hl : ∀ g ∈ Database.get_failed_transactions_ready_for_retry now s,
      g.tx_hash = f.tx_hash →
      RetryHandler.MAX_RETRY_ATTEMPTS ≤ g.retry_count := by
    intro g hg he
    rw [hinj hg hf he]
    exact hmax
  have h1 : f.tx_hash ∉ (RetryHandler.process_retry_queue now oracle s).2 := by
    rw [process_retry_queue_eq_foldl]
    exact retry_fold_log_not_mem now oracle _ (s, []) f.tx_hash
      (by simp) hl
  have h2 : f.tx_hash ∉
      failedKeys (RetryHandler.process_retry_queue now oracle s).1 := by
    rw [process_retry_queue_eq_foldl]
    exact retry_fold_removes now oracle _ (s, []) f.tx_hash hl
      (Or.inr ⟨f, hf, rfl⟩)
  have hl2 : ∀ g ∈ Database.get_failed_transactions_ready_for_retry now2
      (RetryHandler.process_retry_queue now oracle s).1,
      g.tx_hash = f.tx_hash →
      RetryHandler.MAX_RETRY_ATTEMPTS ≤ g.retry_count := by
    intro g hg he
    exact absurd (he ▸ List.mem_map.mpr ⟨g, mem_of_mem_ready _ _ g hg, rfl⟩) h2
  refine ⟨h1, h2, ?_, ?_⟩
  · rw [process_retry_queue_eq_foldl]
    exact retry_fold_log_not_mem now2 oracle2 _ (_, []) f.tx_hash (by simp) hl2
  · rw [process_retry_queue_eq_foldl]
    exact retry_fold_removes now2 oracle2 _ (_, []) f.tx_hash hl2 (Or.inl h2)

/-- Witness for C3: a concrete queue holding an entry at the retry limit
next to a live one. -/
theorem C3_retry_limit_witness :
    (failedKeys dbC3).Nodup
    ∧ fC3 ∈ Database.get_failed_transactions_ready_for_retry 50 dbC3
    ∧ RetryHandler.MAX_RETRY_ATTEMPTS ≤ fC3.retry_count
    ∧ fC3.tx_hash ∉ (RetryHandler.process_retry_queue 50
        (fun _ => ⟨none, "still failing", true⟩) dbC3).2
    ∧ fC3.tx_hash ∉ failedKeys (RetryHandler.process_retry_queue 50
        (fun _ => ⟨none, "still failing", true⟩) dbC3).1 := by
  refine ⟨by decide, by decide, by decide, ?_, ?_⟩
  · exact (C3_retry_limit 50 60 (fun _ => ⟨none, "still failing", true⟩)
      (fun _ => ⟨none, "x", true⟩) dbC3 fC3 (by decide) (by decide) (by decide)).1
  · exact (C3_retry_limit 50 60 (fun _ => ⟨none, "still failing", true⟩)
      (fun _ => ⟨none, "x", true⟩) dbC3 fC3 (by decide) (by decide) (by decide)).2.1

/-- State with every sentinel row deleted from the analyzed-transactions
table. -/
def erase_sentinel_rows (s : DbState) : DbState :=
  { s with l2_batches_txs := s.l2_batches_txs.filter (fun r =>
      r.tx_hash != "monitoring_state") }

/-- Pre-filtering by a weaker predicate does not change a filter. -/
theorem filter_filter_absorb {α : Type} (p q : α → Bool) (l : List α)
    (h : ∀ a, p a = true → q a = true) :
    (l.filter q).filter p = l.filter p := by
  induction l with
  | nil => rfl
  | cons a t ih =>
      by_cases hq : q a = true
      · rw [List.filter_cons, List.filter_cons, if_pos hq, List.filter_cons, ih]
      · have hp : p a = false := by
          cases hpa : p a
          · rfl
          · exact absurd (h a hpa) hq
        rw [List.filter_cons, if_neg hq, ih, List.filter_cons, hp]
        simp

/-- The shared aggregation row filter ignores sentinel rows entirely. -/
theorem window_rows_erase (s : DbState) (a b : Int) :
    Database.window_rows (erase_sentinel_rows s) a b =
      Database.window_rows s a b := by
  unfold Database.window_rows erase_sentinel_rows
  exact filter_filter_absorb _ _ s.l2_batches_txs (by
    intro r hr
    simp only [Bool.and_eq_true] at hr
    exact hr.2)

/-- C10: the monitoring cursor is persisted as the sentinel row with
tx_hash 'monitoring_state' inside l2_batches_txs itself — inserted at
initialization when absent (INSERT OR IGNORE) — and every aggregation
query filters that hash out, so for every database state the sentinel
rows contribute nothing to any returned count or total. -/
theorem C10_sentinel_row (s : DbState) (initial_block : Nat) (addr : String)
    (a b : Int) :
    Database.is_tx_already_tracked (Database.sqlite_database_new initial_block s)
      "monitoring_state" = true
    ∧ Database.get_daily_transactions (erase_sentinel_rows s) addr a b =
        Database.get_daily_transactions s addr a b
    ∧ Database.get_eth_saved_data (erase_sentinel_rows s) addr a b =
        Database.get_eth_saved_data s addr a b
    ∧ Database.get_total_blob_data_gas (erase_sentinel_rows s) addr a b =
        Database.get_total_blob_data_gas s addr a b
    ∧ Database.get_total_pectra_data_gas (erase_sentinel_rows s) addr a b =
        Database.get_total_pectra_data_gas s addr a b
    ∧ Database.get_all_daily_transactions (erase_sentinel_rows s) a b =
        Database.get_all_daily_transactions s a b
    ∧ Database.get_all_eth_saved_data (erase_sentinel_rows s) a b =
        Database.get_all_eth_saved_data s a b
    ∧ Database.get_all_total_blob_data_gas (erase_sentinel_rows s) a b =
        Database.get_all_total_blob_data_gas s a b
    ∧ Database.get_all_total_pectra_data_gas (erase_sentinel_rows s) a b =
        Database.get_all_total_pectra_data_gas s a b := by
  refine ⟨?_, ?_, ?_, ?_, ?_, ?_, ?_, ?_, ?_⟩
  · unfold Database.sqlite_database_new
    split
    next hp => exact hp
    · unfold Database.is_tx_already_tracked Database.sentinel_row
      simp
  · unfold Database.get_daily_transactions
    rw [window_rows_erase]
  · unfold Database.get_eth_saved_data
    rw [window_rows_erase]
  · unfold Database.get_total_blob_data_gas
    rw [window_rows_erase]
  · unfold Database.get_total_pectra_data_gas
    rw [window_rows_erase]
  · unfold Database.get_all_daily_transactions
    rw [window_rows_erase]
  · unfold Database.get_all_eth_saved_data
    rw [window_rows_erase]
  · unfold Database.get_all_total_blob_data_gas
    rw [window_rows_erase]
  · unfold Database.get_all_total_pectra_data_gas
    rw [window_rows_erase]

/-- Lookup in the snapshot accumulator map. -/
def lookupTmp (m : List (String × Snapshot.TmpStats)) (k : String) :
    Option Snapshot.TmpStats :=
  (m.find? (fun p => p.1 == k)).map (fun p => p.2)

/-- Lookup with zero default in an aggregate list. -/
def aggLookupD (l : List (String × Nat)) (a : String) : Nat :=
  ((l.find? (fun p => p.1 == a)).map (fun p => p.2)).getD 0

/-- Keys of an association list. -/
def keysOf {β : Type} (l : List (String × β)) : List String :=
  l.map (fun p => p.1)

/-- Writing an existing key leaves the key list unchanged. -/
theorem keysOf_setEntry_present (m : List (String × Snapshot.TmpStats))
    (k : String) (u : Snapshot.TmpStats → Snapshot.TmpStats)
    (hp : (m.any (fun p => p.1 == k)) = true) :
    keysOf (Snapshot.setEntry m k u) = keysOf m := by
  unfold Snapshot.setEntry keysOf
  rw [if_pos hp, List.map_map]
  refine List.map_congr_left (fun q _ => ?_)
  show (if (q.1 == k) = true then (q.1, u q.2) else q).1 = q.1
  split <;> rfl

/-- Writing a fresh key appends it to the key list. -/
theorem keysOf_setEntry_absent (m : List (String × Snapshot.TmpStats))
    (k : String) (u : Snapshot.TmpStats → Snapshot.TmpStats)
    (hp : ¬ (m.any (fun p => p.1 == k)) = true) :
    keysOf (Snapshot.setEntry m k u) = keysOf m ++ [k] := by
  unfold Snapshot.setEntry keysOf
  rw [if_neg hp]
  simp

/-- Key membership after setEntry. -/
theorem keysOf_setEntry (m : List (String × Snapshot.TmpStats)) (k : String)
    (u : Snapshot.TmpStats → Snapshot.TmpStats) (a : String) :
    a ∈ keysOf (Snapshot.setEntry m k u) ↔ a ∈ keysOf m ∨ a = k := by
  by_cases hp : (m.any (fun p => p.1 == k)) = true
  · rw [keysOf_setEntry_present m k u hp]
    constructor
    · exact Or.inl
    · rintro (ha | rfl)
      · exact ha
      · rw [List.any_eq_true] at hp
        obtain ⟨q, hq, hqk⟩ := hp
        exact List.mem_map.mpr ⟨q, hq, beq_iff_eq.mp hqk⟩
  · rw [keysOf_setEntry_absent m k u hp, List.mem_append, List.mem_singleton]

/-- Key-list uniqueness survives setEntry. -/
theorem nodup_keysOf_setEntry (m : List (String × Snapshot.TmpStats))
    (k : String) (u : Snapshot.TmpStats → Snapshot.TmpStats)
    (hn : (keysOf m).Nodup) : (keysOf (Snapshot.setEntry m k u)).Nodup := by
  by_cases hp : (m.any (fun p => p.1 == k)) = true
  · rw [keysOf_setEntry_present m k u hp]
    exact hn
  · rw [keysOf_setEntry_absent m k u hp, List.nodup_append]
    refine ⟨hn, List.nodup_singleton _, ?_⟩
    intro b hb hbk
    rw [List.mem_singleton] at hbk
    subst hbk
    rw [List.any_eq_true] at hp
    obtain ⟨q, hq, hqk⟩ := List.mem_map.mp hb
    exact hp ⟨q, hq, beq_iff_eq.mpr hqk⟩

/-- Lookup of the written key after setEntry: the assignment applied to
the previous value or to the default. -/
theorem lookupTmp_setEntry_eq (m : List (String × Snapshot.TmpStats))
    (k : String) (u : Snapshot.TmpStats → Snapshot.TmpStats) :
    lookupTmp (Snapshot.setEntry m k u) k =
      some (u ((lookupTmp m k).getD {})) := by
  unfold Snapshot.setEntry lookupTmp
  by_cases hp : (m.any (fun p => p.1 == k)) = true
  · rw [if_pos hp]
    induction m with
    | nil => simp at hp
    | cons q t ih =>
        by_cases hqk : (q.1 == k) = true
        · rw [List.map_cons, if_pos hqk,
            @List.find?_cons_of_pos _ (fun p => p.1 == k) (q.1, u q.2) _
              (by simpa using hqk),
            @List.find?_cons_of_pos _ (fun p => p.1 == k) q t hqk]
          simp
        · rw [List.map_cons, if_neg hqk,
            @List.find?_cons_of_neg _ (fun p => p.1 == k) q _ hqk,
            @List.find?_cons_of_neg _ (fun p => p.1 == k) q t hqk]
          simp only [List.any_cons, hqk, Bool.false_or] at hp
          exact ih (by simpa using hp)
  · rw [if_neg hp]
    have hnone : m.find? (fun p => p.1 == k) = none := by
      rw [List.find?_eq_none]
      intro q hq hqk
      exact hp (List.any_eq_true.mpr ⟨q, hq, hqk⟩)
    rw [List.find?_append, hnone]
    simp

/-- Lookup of a different key is untouched by setEntry. -/
theorem lookupTmp_setEntry_ne (m : List (String × Snapshot.TmpStats))
    (k : String) (u : Snapshot.TmpStats → Snapshot.TmpStats) (a : String)
    (hak : a ≠ k) :
    lookupTmp (Snapshot.setEntry m k u) a = lookupTmp m a := by
  unfold Snapshot.setEntry lookupTmp
  have hmap : ∀ t : List (String × Snapshot.TmpStats),
      List.find? (fun p => p.1 == a)
        (t.map (fun p => if (p.1 == k) = true then (p.1, u p.2) else p)) =
      List.find? (fun p => p.1 == a) t := by
    intro t
    induction t with
    | nil => rfl
    | cons q w ih =>
        by_cases hqa : (q.1 == a) = true
        · have hqk : ¬ (q.1 == k) = true := by
            simp only [beq_iff_eq] at hqa ⊢
            rw [hqa]
            exact hak
          rw [List.map_cons, if_neg hqk,
            @List.find?_cons_of_pos _ (fun p => p.1 == a) q _ hqa,
            @List.find?_cons_of_pos _ (fun p => p.1 == a) q w hqa]
        · by_cases hqk : (q.1 == k) = true
          · rw [List.map_cons, if_pos hqk,
              @List.find?_cons_of_neg _ (fun p => p.1 == a) (q.1, u q.2) _
                (by simpa using hqa),
              @List.find?_cons_of_neg _ (fun p => p.1 == a) q w hqa]
            exact ih
          · rw [List.map_cons, if_neg hqk,
              @List.find?_cons_of_neg _ (fun p => p.1 == a) q _ hqa,
              @List.find?_cons_of_neg _ (fun p => p.1 == a) q w hqa]
            exact ih
  by_cases hp : (m.any (fun p => p.1 == k)) = true
  · rw [if_pos hp, hmap m]
  · rw [if_neg hp, List.find?_append]
    have h1 : List.find? (fun p => p.1 == a) [(k, u {})] = none := by
      have h2 : ((k, u ({} : Snapshot.TmpStats)).1 == a) = false := by
        simp only [beq_eq_false_iff_ne]
        exact fun hc => hak hc.symm
      simp [List.find?, h2]
    rw [h1]
    simp

/-- One merge phase of create_and_save_snapshot: fold an aggregate list
into the accumulator map with a per-field assignment. -/
def applyAll (u : Nat → Snapshot.TmpStats → Snapshot.TmpStats)
    (l : List (String × Nat)) (m : List (String × Snapshot.TmpStats)) :
    List (String × Snapshot.TmpStats) :=
  l.foldl (fun m p => Snapshot.setEntry m p.1 (u p.2)) m

/-- Keys absent from the aggregate list are untouched by a merge phase. -/
theorem lookupTmp_applyAll_absent (u : Nat → Snapshot.TmpStats → Snapshot.TmpStats)
    (l : List (String × Nat)) (m : List (String × Snapshot.TmpStats))
    (a : String) (ha : a ∉ keysOf l) :
    lookupTmp (applyAll u l m) a = lookupTmp m a := by
  induction l generalizing m with
  | nil => rfl
  | cons p t ih =>
      have hpa : a ≠ p.1 := fun hc =>
        ha (List.mem_map.mpr ⟨p, List.mem_cons_self p t, hc.symm⟩)
      have ht : a ∉ keysOf t := fun hc =>
        ha (by
          obtain ⟨q, hq, hqe⟩ := List.mem_map.mp hc
          exact List.mem_map.mpr ⟨q, List.mem_cons_of_mem p hq, hqe⟩)
      show lookupTmp (applyAll u t (Snapshot.setEntry m p.1 (u p.2))) a = _
      rw [ih _ ht, lookupTmp_setEntry_ne _ _ _ _ hpa]

/-- A key listed in an aggregate with unique keys ends a merge phase
holding the assignment applied to its previous value or the default. -/
theorem lookupTmp_applyAll_present (u : Nat → Snapshot.TmpStats → Snapshot.TmpStats)
    (l : List (String × Nat)) (m : List (String × Snapshot.TmpStats))
    (a : String) (v : Nat) (hn : (keysOf l).Nodup) (hv : (a, v) ∈ l) :
    lookupTmp (applyAll u l m) a =
      some (u v ((lookupTmp m a).getD {})) := by
  induction l generalizing m with
  | nil => simp at hv
  | cons p t ih =>
      have hn2 : (keysOf t).Nodup := (List.nodup_cons.mp hn).2
      rcases List.mem_cons.mp hv with rfl | hv2
      · have hat : a ∉ keysOf t := by
          have h1 : keysOf ((a, v) :: t) = a :: keysOf t := rfl
          have hn' := hn
          rw [h1, List.nodup_cons] at hn'
          exact hn'.1
        show lookupTmp (applyAll u t (Snapshot.setEntry m a (u v))) a = _
        rw [lookupTmp_applyAll_absent u t _ a hat, lookupTmp_setEntry_eq]
      · have hap : a ≠ p.1 := by
          intro hc
          have h1 : keysOf (p :: t) = p.1 :: keysOf t := rfl
          have hn' := hn
          rw [h1, List.nodup_cons] at hn'
          have hmem : a ∈ keysOf t := List.mem_map.mpr ⟨(a, v), hv2, rfl⟩
          rw [hc] at hmem
          exact hn'.1 hmem
        show lookupTmp (applyAll u t (Snapshot.setEntry m p.1 (u p.2))) a = _
        rw [ih _ hn2 hv2, lookupTmp_setEntry_ne _ _ _ _ hap]

/-- Key membership after a merge phase. -/
theorem keysOf_applyAll (u : Nat → Snapshot.TmpStats → Snapshot.TmpStats)
    (l : List (String × Nat)) (m : List (String × Snapshot.TmpStats))
    (a : String) :
    a ∈ keysOf (applyAll u l m) ↔ a ∈ keysOf m ∨ a ∈ keysOf l := by
  induction l generalizing m with
  | nil => simp [applyAll, keysOf]
  | cons p t ih =>
      show a ∈ keysOf (applyAll u t (Snapshot.setEntry m p.1 (u p.2))) ↔ _
      rw [ih, keysOf_setEntry]
      unfold keysOf
      simp only [List.map_cons, List.mem_cons]
      tauto

/-- Key uniqueness survives a merge phase. -/
theorem nodup_keysOf_applyAll (u : Nat → Snapshot.TmpStats → Snapshot.TmpStats)
    (l : List (String × Nat)) (m : List (String × Snapshot.TmpStats))
    (hn : (keysOf m).Nodup) : (keysOf (applyAll u l m)).Nodup := by
  induction l generalizing m with
  | nil => exact hn
  | cons p t ih => exact ih _ (nodup_keysOf_setEntry m p.1 (u p.2) hn)

/-- In an association list with unique keys, find? by key returns exactly
the member carrying that key. -/
theorem find?_key_eq_of_mem {β : Type} (l : List (String × β)) (a : String)
    (v : β) (hn : (keysOf l).Nodup) (hv : (a, v) ∈ l) :
    l.find? (fun p => p.1 == a) = some (a, v) := by
  induction l with
  | nil => simp at hv
  | cons p t ih =>
      have h1 : keysOf (p :: t) = p.1 :: keysOf t := rfl
      have hn' := hn
      rw [h1, List.nodup_cons] at hn'
      rcases List.mem_cons.mp hv with rfl | hv2
      · exact @List.find?_cons_of_pos _ (fun p => p.1 == a) (a, v) t (by simp)
      · have hpa : ¬ (p.1 == a) = true := by
          simp only [beq_iff_eq]
          intro hc
          exact hn'.1 (hc ▸ List.mem_map.mpr ⟨(a, v), hv2, rfl⟩)
        rw [@List.find?_cons_of_neg _ (fun p => p.1 == a) p t hpa]
        exact ih hn'.2 hv2

/-- A key missing from an aggregate list looks up to the zero default. -/
theorem aggLookupD_eq_zero_of_not_mem (l : List (String × Nat)) (a : String)
    (ha : a ∉ keysOf l) : aggLookupD l a = 0 := by
  unfold aggLookupD
  have hnone : l.find? (fun p => p.1 == a) = none := by
    rw [List.find?_eq_none]
    intro p hp hpa
    exact ha (List.mem_map.mpr ⟨p, hp, beq_iff_eq.mp hpa⟩)
  rw [hnone]
  rfl

/-- A key present in a unique-keys aggregate list looks up to its value. -/
theorem aggLookupD_eq_of_mem (l : List (String × Nat)) (a : String) (v : Nat)
    (hn : (keysOf l).Nodup) (hv : (a, v) ∈ l) : aggLookupD l a = v := by
  unfold aggLookupD
  rw [find?_key_eq_of_mem l a v hn hv]
  rfl

/-- A merge phase whose assignment leaves a projection untouched leaves
that projection of every key untouched. -/
theorem proj_applyAll_preserve (proj : Snapshot.TmpStats → Nat)
    (u : Nat → Snapshot.TmpStats → Snapshot.TmpStats)
    (hu : ∀ v t, proj (u v t) = proj t)
    (l : List (String × Nat)) (m : List (String × Snapshot.TmpStats))
    (a : String) (hn : (keysOf l).Nodup) :
    proj ((lookupTmp (applyAll u l m) a).getD {}) =
      proj ((lookupTmp m a).getD {}) := by
  by_cases ha : a ∈ keysOf l
  · obtain ⟨p, hp, hpa⟩ := List.mem_map.mp ha
    have hv : (a, p.2) ∈ l := by
      have : p = (a, p.2) := by
        rw [← hpa]
      rw [← this]
      exact hp
    rw [lookupTmp_applyAll_present u l m a p.2 hn hv]
    simp [hu]
  · rw [lookupTmp_applyAll_absent u l m a ha]

/-- A merge phase whose assignment writes a projection makes that
projection of every key equal to the aggregate value (default zero). -/
theorem proj_applyAll_set (proj : Snapshot.TmpStats → Nat)
    (u : Nat → Snapshot.TmpStats → Snapshot.TmpStats)
    (hu : ∀ v t, proj (u v t) = v)
    (l : List (String × Nat)) (m : List (String × Snapshot.TmpStats))
    (a : String) (hn : (keysOf l).Nodup)
    (hm : proj ((lookupTmp m a).getD {}) = 0) :
    proj ((lookupTmp (applyAll u l m) a).getD {}) = aggLookupD l a := by
  by_cases ha : a ∈ keysOf l
  · obtain ⟨p, hp, hpa⟩ := List.mem_map.mp ha
    have hv : (a, p.2) ∈ l := by
      have : p = (a, p.2) := by
        rw [← hpa]
      rw [← this]
      exact hp
    rw [lookupTmp_applyAll_present u l m a p.2 hn hv,
      aggLookupD_eq_of_mem l a p.2 hn hv]
    simp [hu]
  · rw [lookupTmp_applyAll_absent u l m a ha,
      aggLookupD_eq_zero_of_not_mem l a ha, hm]

/-- Field assignment of the daily-transaction merge phase. -/
def setDaily : Nat → Snapshot.TmpStats → Snapshot.TmpStats :=
  fun v t => { t with total_daily_txs := v }

/-- Field assignment of the eth-saved merge phase. -/
def setEth : Nat → Snapshot.TmpStats → Snapshot.TmpStats :=
  fun v t => { t with total_eth_saved_wei := v }

/-- Field assignment of the blob-gas merge phase. -/
def setBlob : Nat → Snapshot.TmpStats → Snapshot.TmpStats :=
  fun v t => { t with total_blob_data_gas := v }

/-- Field assignment of the pectra-gas merge phase. -/
def setPectra : Nat → Snapshot.TmpStats → Snapshot.TmpStats :=
  fun v t => { t with total_pectra_data_gas := v }

/-- The merge of create_and_save_snapshot phrased as four generic merge
phases. -/
theorem snapshot_merge_eq (dt et bg pg : List (String × Nat)) :
    Snapshot.snapshot_merge dt et bg pg =
      applyAll setPectra pg (applyAll setBlob bg
        (applyAll setEth et (applyAll setDaily dt []))) := rfl

/-- Key membership in the merged accumulator map: the union of the four
aggregate key sets. -/
theorem snapshot_merge_keys (dt et bg pg : List (String × Nat)) (a : String) :
    a ∈ keysOf (Snapshot.snapshot_merge dt et bg pg) ↔
      a ∈ keysOf dt ∨ a ∈ keysOf et ∨ a ∈ keysOf bg ∨ a ∈ keysOf pg := by
  rw [snapshot_merge_eq, keysOf_applyAll, keysOf_applyAll, keysOf_applyAll,
    keysOf_applyAll]
  have hne : a ∉ keysOf ([] : List (String × Snapshot.TmpStats)) := by
    simp [keysOf]
  tauto

/-- The merged accumulator map has unique keys. -/
theorem snapshot_merge_nodup (dt et bg pg : List (String × Nat)) :
    (keysOf (Snapshot.snapshot_merge dt et bg pg)).Nodup := by
  rw [snapshot_merge_eq]
  exact nodup_keysOf_applyAll _ _ _ (nodup_keysOf_applyAll _ _ _
    (nodup_keysOf_applyAll _ _ _ (nodup_keysOf_applyAll _ _ _ List.nodup_nil)))

/-- Fields of an entry of the merged accumulator map: each equals the
corresponding aggregate value for its address, defaulting to zero. -/
theorem snapshot_merge_fields (dt et bg pg : List (String × Nat))
    (h1 : (keysOf dt).Nodup) (h2 : (keysOf et).Nodup)
    (h3 : (keysOf bg).Nodup) (h4 : (keysOf pg).Nodup)
    (a : String) (t : Snapshot.TmpStats)
    (hmem : (a, t) ∈ Snapshot.snapshot_merge dt et bg pg) :
    t.total_daily_txs = aggLookupD dt a
    ∧ t.total_eth_saved_wei = aggLookupD et a
    ∧ t.total_blob_data_gas = aggLookupD bg a
    ∧ t.total_pectra_data_gas = aggLookupD pg a := by
  have hlk : lookupTmp (Snapshot.snapshot_merge dt et bg pg) a = some t := by
    unfold lookupTmp
    rw [find?_key_eq_of_mem _ a t (snapshot_merge_nodup dt et bg pg) hmem]
    rfl
  have hget : ((lookupTmp (Snapshot.snapshot_merge dt et bg pg) a).getD {}) = t := by
    rw [hlk]
    rfl
  rw [snapshot_merge_eq] at hget
  set m1 := applyAll setDaily dt ([] : List (String × Snapshot.TmpStats)) with hm1
  set m2 := applyAll setEth et m1 with hm2
  set m3 := applyAll setBlob bg m2 with hm3
  refine ⟨?_, ?_, ?_, ?_⟩
  · rw [← hget]
    exact (proj_applyAll_preserve (fun t => t.total_daily_txs) setPectra
        (fun v t => rfl) pg m3 a h4).trans
      ((proj_applyAll_preserve (fun t => t.total_daily_txs) setBlob
        (fun v t => rfl) bg m2 a h3).trans
      ((proj_applyAll_preserve (fun t => t.total_daily_txs) setEth
        (fun v t => rfl) et m1 a h2).trans
      (proj_applyAll_set (fun t => t.total_daily_txs) setDaily
        (fun v t => rfl) dt [] a h1 rfl)))
  · rw [← hget]
    exact (proj_applyAll_preserve (fun t => t.total_eth_saved_wei) setPectra
        (fun v t => rfl) pg m3 a h4).trans
      ((proj_applyAll_preserve (fun t => t.total_eth_saved_wei) setBlob
        (fun v t => rfl) bg m2 a h3).trans
      (proj_applyAll_set (fun t => t.total_eth_saved_wei) setEth
        (fun v t => rfl) et m1 a h2
        ((proj_applyAll_preserve (fun t => t.total_eth_saved_wei) setDaily
          (fun v t => rfl) dt [] a h1).trans rfl)))
  · rw [← hget]
    exact (proj_applyAll_preserve (fun t => t.total_blob_data_gas) setPectra
        (fun v t => rfl) pg m3 a h4).trans
      (proj_applyAll_set (fun t => t.total_blob_data_gas) setBlob
        (fun v t => rfl) bg m2 a h3
        ((proj_applyAll_preserve (fun t => t.total_blob_data_gas) setEth
          (fun v t => rfl) et m1 a h2).trans
        ((proj_applyAll_preserve (fun t => t.total_blob_data_gas) setDaily
          (fun v t => rfl) dt [] a h1).trans rfl)))
  · rw [← hget]
    exact proj_applyAll_set (fun t => t.total_pectra_data_gas) setPectra
        (fun v t => rfl) pg m3 a h4
      ((proj_applyAll_preserve (fun t => t.total_pectra_data_gas) setBlob
          (fun v t => rfl) bg m2 a h3).trans
        ((proj_applyAll_preserve (fun t => t.total_pectra_data_gas) setEth
          (fun v t => rfl) et m1 a h2).trans
        ((proj_applyAll_preserve (fun t => t.total_pectra_data_gas) setDaily
          (fun v t => rfl) dt [] a h1).trans rfl)))

/-- Keys of a grouped aggregate built over deduplicated addresses. -/
theorem keysOf_pairs_dedup (l : List String) (g : String → Nat) :
    keysOf (l.dedup.map (fun a => (a, g a))) = l.dedup := by
  unfold keysOf
  rw [List.map_map]
  have hc : ((fun p : String × Nat => p.1) ∘ fun a => (a, g a)) =
      fun a => a := rfl
  rw [hc, List.map_id']

/-- The four all-address aggregates key their results uniquely. -/
theorem get_all_aggregates_keys_nodup (s : DbState) (a b : Int) :
    (keysOf (Database.get_all_daily_transactions s a b)).Nodup
    ∧ (keysOf (Database.get_all_eth_saved_data s a b)).Nodup
    ∧ (keysOf (Database.get_all_total_blob_data_gas s a b)).Nodup
    ∧ (keysOf (Database.get_all_total_pectra_data_gas s a b)).Nodup := by
  refine ⟨?_, ?_, ?_, ?_⟩
  · have h : keysOf (Database.get_all_daily_transactions s a b) =
        ((Database.window_rows s a b).map (fun r => r.batcher_address)).dedup :=
      keysOf_pairs_dedup _ _
    rw [h]
    exact List.nodup_dedup _
  · have h : keysOf (Database.get_all_eth_saved_data s a b) =
        (((Database.window_rows s a b).filter (fun r =>
          r.analysis_result.parses)).map (fun r => r.batcher_address)).dedup :=
      keysOf_pairs_dedup _ _
    rw [h]
    exact List.nodup_dedup _
  · have h : keysOf (Database.get_all_total_blob_data_gas s a b) =
        (((Database.window_rows s a b).filter (fun r =>
          r.analysis_result.parses)).map (fun r => r.batcher_address)).dedup :=
      keysOf_pairs_dedup _ _
    rw [h]
    exact List.nodup_dedup _
  · have h : keysOf (Database.get_all_total_pectra_data_gas s a b) =
        (((Database.window_rows s a b).filter (fun r =>
          r.analysis_result.parses)).map (fun r => r.batcher_address)).dedup :=
      keysOf_pairs_dedup _ _
    rw [h]
    exact List.nodup_dedup _

/-- Start of the aggregation window used by a snapshot run: midnight of
the previous UTC day. -/
def aggWindowStart (now_ts : Int) : Int := Snapshot.day_start_ts now_ts - 86400

/-- Inclusive end of the aggregation window used by a snapshot run: one
second before midnight of the current UTC day. -/
def aggWindowEnd (now_ts : Int) : Int := Snapshot.day_start_ts now_ts - 1

/-- Daily-transaction aggregate fetched by a snapshot run. -/
def snapDt (now_ts : Int) (s : DbState) : List (String × Nat) :=
  Database.get_all_daily_transactions s (aggWindowStart now_ts) (aggWindowEnd now_ts)

/-- Eth-saved aggregate fetched by a snapshot run. -/
def snapEt (now_ts : Int) (s : DbState) : List (String × Nat) :=
  Database.get_all_eth_saved_data s (aggWindowStart now_ts) (aggWindowEnd now_ts)

/-- Blob-gas aggregate fetched by a snapshot run. -/
def snapBg (now_ts : Int) (s : DbState) : List (String × Nat) :=
  Database.get_all_total_blob_data_gas s (aggWindowStart now_ts) (aggWindowEnd now_ts)

/-- Pectra-gas aggregate fetched by a snapshot run. -/
def snapPg (now_ts : Int) (s : DbState) : List (String × Nat) :=
  Database.get_all_total_pectra_data_gas s (aggWindowStart now_ts) (aggWindowEnd now_ts)

/-- Row batch built by a snapshot run. -/
def snapshot_rows (now_ts : Int) (s : DbState) : List DailyBatcherStats :=
  (Snapshot.snapshot_merge (snapDt now_ts s) (snapEt now_ts s)
    (snapBg now_ts s) (snapPg now_ts s)).map (fun p =>
      { batcher_address := p.1,
        snapshot_timestamp := aggWindowStart now_ts,
        total_eth_saved_wei := p.2.total_eth_saved_wei,
        total_daily_txs := p.2.total_daily_txs,
        total_blob_data_gas := p.2.total_blob_data_gas,
        total_pectra_data_gas := p.2.total_pectra_data_gas })

/-- Destructured form of create_and_save_snapshot: the batch written —
atomically, in the one daily_batcher_stats update — is snapshot_rows,
and the two transaction tables are untouched. -/
theorem create_and_save_snapshot_eq (now_ts : Int) (s : DbState) :
    Snapshot.create_and_save_snapshot now_ts s =
      ({ s with
         daily_batcher_stats := Snapshot.insert_daily_batcher_stats
           s.daily_batcher_stats (snapshot_rows now_ts s) },
       snapshot_rows now_ts s) := rfl

/-- C8: a snapshot run at a non-negative Unix time uses exactly the
previous-UTC-day window [floor(now,86400)−86400, floor(now,86400)−1],
touches no table but daily_batcher_stats — written as one atomic batch
upsert — and builds exactly one row per batcher address appearing in any
of the four per-address aggregates over that window, every row stamped
with the window start and carrying exactly the aggregate values of its
address (zero where an aggregate omits the address). -/
theorem C8_snapshot (now_ts : Int) (s : DbState) (hn : 0 ≤ now_ts) :
    Snapshot.day_start_ts now_ts = (now_ts / 86400) * 86400
    ∧ aggWindowStart now_ts = (now_ts / 86400) * 86400 - 86400
    ∧ aggWindowEnd now_ts = (now_ts / 86400) * 86400 - 1
    ∧ (Snapshot.create_and_save_snapshot now_ts s).1.l2_batches_txs =
        s.l2_batches_txs
    ∧ (Snapshot.create_and_save_snapshot now_ts s).1.failed_transactions =
        s.failed_transactions
    ∧ (Snapshot.create_and_save_snapshot now_ts s).1.daily_batcher_stats =
        Snapshot.insert_daily_batcher_stats s.daily_batcher_stats
          (Snapshot.create_and_save_snapshot now_ts s).2
    ∧ ((Snapshot.create_and_save_snapshot now_ts s).2.map
        (fun r => r.batcher_address)).Nodup
    ∧ (∀ a, a ∈ (Snapshot.create_and_save_snapshot now_ts s).2.map
          (fun r => r.batcher_address) ↔
        (a ∈ keysOf (snapDt now_ts s) ∨ a ∈ keysOf (snapEt now_ts s)
         ∨ a ∈ keysOf (snapBg now_ts s) ∨ a ∈ keysOf (snapPg now_ts s)))
    ∧ (∀ r ∈ (Snapshot.create_and_save_snapshot now_ts s).2,
        r.snapshot_timestamp = aggWindowStart now_ts
        ∧ r.total_daily_txs = aggLookupD (snapDt now_ts s) r.batcher_address
        ∧ r.total_eth_saved_wei = aggLookupD (snapEt now_ts s) r.batcher_address
        ∧ r.total_blob_data_gas = aggLookupD (snapBg now_ts s) r.batcher_address
        ∧ r.total_pectra_data_gas = aggLookupD (snapPg now_ts s) r.batcher_address) := by
  have hday : Snapshot.day_start_ts now_ts = (now_ts / 86400) * 86400 := by
    unfold Snapshot.day_start_ts
    rw [Int.tdiv_eq_ediv hn (by norm_num)]
  have hkeq : (Snapshot.create_and_save_snapshot now_ts s).2.map
      (fun r => r.batcher_address) =
      keysOf (Snapshot.snapshot_merge (snapDt now_ts s) (snapEt now_ts s)
        (snapBg now_ts s) (snapPg now_ts s)) := by
    rw [create_and_save_snapshot_eq]
    unfold snapshot_rows keysOf
    rw [List.map_map]
    rfl
  obtain ⟨k1, k2, k3, k4⟩ := get_all_aggregates_keys_nodup s
    (aggWindowStart now_ts) (aggWindowEnd now_ts)
  refine ⟨hday, by rw [← hday]; rfl, by rw [← hday]; rfl, rfl, rfl, rfl, ?_, ?_, ?_⟩
  · rw [hkeq]
    exact snapshot_merge_nodup _ _ _ _
  · intro a
    rw [hkeq]
    exact snapshot_merge_keys _ _ _ _ a
  · intro r hr
    rw [create_and_save_snapshot_eq] at hr
    unfold snapshot_rows at hr
    obtain ⟨p, hp, hpe⟩ := List.mem_map.mp hr
    have hpm : (p.1, p.2) ∈ Snapshot.snapshot_merge (snapDt now_ts s)
        (snapEt now_ts s) (snapBg now_ts s) (snapPg now_ts s) := by
      simpa using hp
    have hfields := snapshot_merge_fields _ _ _ _ k1 k2 k3 k4 p.1 p.2 hpm
    rw [← hpe]
    exact ⟨rfl, hfields.1, hfields.2.1, hfields.2.2.1, hfields.2.2.2⟩

/-- Two-address database used by the snapshot witnesses. -/
def dbC8 : DbState :=
  { l2_batches_txs :=
      [Database.sentinel_row 0,
       { tx_hash := "0x1", batcher_address := "0xaa",
         analysis_result := ⟨true, 5, 7, 100, 300⟩, timestamp := 10,
         last_analyzed_block := none },
       { tx_hash := "0x2", batcher_address := "0xbb",
         analysis_result := ⟨true, 11, 13, 40, 90⟩, timestamp := 20,
         last_analyzed_block := none }],
    failed_transactions := [],
    daily_batcher_stats := [] }

/-- Snapshot row the witness inspects. -/
def rowC8 : DailyBatcherStats :=
  { batcher_address := "0xaa", snapshot_timestamp := 0,
    total_eth_saved_wei := 200, total_daily_txs := 1,
    total_blob_data_gas := 5, total_pectra_data_gas := 7 }

/-- Witness for C8 at time 100000 over dbC8. -/
theorem C8_snapshot_witness :
    (0 : Int) ≤ 100000
    ∧ aggWindowStart 100000 = ((100000 : Int) / 86400) * 86400 - 86400
    ∧ rowC8 ∈ (Snapshot.create_and_save_snapshot 100000 dbC8).2
    ∧ (rowC8.snapshot_timestamp = aggWindowStart 100000
       ∧ rowC8.total_daily_txs = aggLookupD (snapDt 100000 dbC8) rowC8.batcher_address
       ∧ rowC8.total_eth_saved_wei = aggLookupD (snapEt 100000 dbC8) rowC8.batcher_address
       ∧ rowC8.total_blob_data_gas = aggLookupD (snapBg 100000 dbC8) rowC8.batcher_address
       ∧ rowC8.total_pectra_data_gas = aggLookupD (snapPg 100000 dbC8) rowC8.batcher_address) := by
  refine ⟨by decide, (C8_snapshot 100000 dbC8 (by decide)).2.1, by decide, ?_⟩
  exact (C8_snapshot 100000 dbC8 (by decide)).2.2.2.2.2.2.2.2 rowC8 (by decide)

/-- Key equality on snapshot rows is reflexive. -/
theorem statKeyEq_refl (r : DailyBatcherStats) :
    Snapshot.statKeyEq r r = true := by
  unfold Snapshot.statKeyEq
  simp

/-- Key equality on snapshot rows unfolded. -/
theorem statKeyEq_iff (a b : DailyBatcherStats) :
    Snapshot.statKeyEq a b = true ↔
      (a.batcher_address = b.batcher_address
       ∧ a.snapshot_timestamp = b.snapshot_timestamp) := by
  unfold Snapshot.statKeyEq
  simp

/-- Mapping a function that fixes every member is the identity. -/
theorem map_self_of_fix {α : Type} (f : α → α) (l : List α)
    (h : ∀ a ∈ l, f a = a) : l.map f = l := by
  induction l with
  | nil => rfl
  | cons a t ih =>
      rw [List.map_cons, h a (List.mem_cons_self a t),
        ih (fun x hx => h x (List.mem_cons_of_mem a hx))]

/-- A snapshot-row table has settled a row when the row's key is present
and every row holding that key is the row itself. -/
def settled (r : DailyBatcherStats) (t : List DailyBatcherStats) : Prop :=
  (∃ q ∈ t, Snapshot.statKeyEq q r = true)
  ∧ ∀ q ∈ t, Snapshot.statKeyEq q r = true → q = r

/-- Upserting a settled row changes nothing. -/
theorem upsert_stat_settled (r : DailyBatcherStats)
    (t : List DailyBatcherStats) (h : settled r t) :
    Snapshot.upsert_stat t r = t := by
  obtain ⟨⟨q0, hq0, hk0⟩, hall⟩ := h
  unfold Snapshot.upsert_stat
  rw [if_pos (List.any_eq_true.mpr ⟨q0, hq0, hk0⟩)]
  apply map_self_of_fix
  intro q hq
  by_cases hk : Snapshot.statKeyEq q r = true
  · rw [if_pos hk]
    exact (hall q hq hk).symm
  · rw [if_neg hk]

/-- Any upsert settles its row. -/
theorem upsert_stat_settles (r : DailyBatcherStats)
    (t : List DailyBatcherStats) : settled r (Snapshot.upsert_stat t r) := by
  unfold Snapshot.upsert_stat
  split
  next hp =>
    rw [List.any_eq_true] at hp
    obtain ⟨q0, hq0, hk0⟩ := hp
    constructor
    · refine ⟨r, ?_, statKeyEq_refl r⟩
      refine List.mem_map.mpr ⟨q0, hq0, ?_⟩
      rw [if_pos hk0]
    · intro q hq hk
      obtain ⟨w, hw, hwe⟩ := List.mem_map.mp hq
      by_cases hwk : Snapshot.statKeyEq w r = true
      · rw [if_pos hwk] at hwe
        exact hwe.symm
      · rw [if_neg hwk] at hwe
        exact absurd (hwe ▸ hk) hwk
  next hp =>
    constructor
    · exact ⟨r, List.mem_append.mpr (Or.inr (List.mem_singleton.mpr rfl)),
        statKeyEq_refl r⟩
    · intro q hq hk
      rcases List.mem_append.mp hq with hq | hq
      · exact absurd (List.any_eq_true.mpr ⟨q, hq, hk⟩) hp
      · exact List.mem_singleton.mp hq

/-- Upserting a row with a different key preserves settledness. -/
theorem upsert_stat_settled_preserve (r r' : DailyBatcherStats)
    (t : List DailyBatcherStats) (hk : Snapshot.statKeyEq r' r = false)
    (h : settled r t) : settled r (Snapshot.upsert_stat t r') := by
  obtain ⟨⟨q0, hq0, hk0⟩, hall⟩ := h
  have hq0r : q0 = r := hall q0 hq0 hk0
  unfold Snapshot.upsert_stat
  split
  next hp =>
    have hq0k : ¬ Snapshot.statKeyEq q0 r' = true := by
      rw [hq0r, statKeyEq_iff]
      rintro ⟨h1, h2⟩
      have hkk : Snapshot.statKeyEq r' r = true :=
        (statKeyEq_iff r' r).mpr ⟨h1.symm, h2.symm⟩
      rw [hkk] at hk
      cases hk
    constructor
    · refine ⟨q0, List.mem_map.mpr ⟨q0, hq0, ?_⟩, hq0r ▸ hk0⟩
      rw [if_neg hq0k]
    · intro q hq hkq
      obtain ⟨w, hw, hwe⟩ := List.mem_map.mp hq
      by_cases hwk : Snapshot.statKeyEq w r' = true
      · rw [if_pos hwk] at hwe
        rw [← hwe] at hkq
        rw [hkq] at hk
        simp at hk
      · rw [if_neg hwk] at hwe
        exact hall q (hwe ▸ hw) hkq
  · constructor
    · exact ⟨q0, List.mem_append.mpr (Or.inl hq0), hk0⟩
    · intro q hq hkq
      rcases List.mem_append.mp hq with hq | hq
      · exact hall q hq hkq
      · rw [List.mem_singleton] at hq
        subst hq
        rw [hkq] at hk
        simp at hk

/-- Settledness survives a fold of upserts over rows with different
keys. -/
theorem settled_foldl_preserve (r : DailyBatcherStats)
    (rows : List DailyBatcherStats) (t : List DailyBatcherStats)
    (hk : ∀ r' ∈ rows, Snapshot.statKeyEq r' r = false)
    (h : settled r t) :
    settled r (rows.foldl Snapshot.upsert_stat t) := by
  induction rows generalizing t with
  | nil => exact h
  | cons r' rest ih =>
      exact ih _ (fun x hx => hk x (List.mem_cons_of_mem r' hx))
        (upsert_stat_settled_preserve r r' t
          (hk r' (List.mem_cons_self r' rest)) h)

/-- After upserting a batch with pairwise-distinct keys, every batch row
is settled. -/
theorem settled_after_insert (rows : List DailyBatcherStats)
    (t : List DailyBatcherStats)
    (hp : List.Pairwise (fun a b => Snapshot.statKeyEq b a = false) rows) :
    ∀ r ∈ rows, settled r (Snapshot.insert_daily_batcher_stats t rows) := by
  unfold Snapshot.insert_daily_batcher_stats
  induction rows generalizing t with
  | nil => intro r hr; simp at hr
  | cons r0 rest ih =>
      intro r hr
      rw [List.pairwise_cons] at hp
      rcases List.mem_cons.mp hr with rfl | hr2
      · exact settled_foldl_preserve r rest _ hp.1 (upsert_stat_settles r t)
      · exact ih _ hp.2 r hr2

/-- Upserting a batch of settled rows changes nothing. -/
theorem insert_settled_eq (rows : List DailyBatcherStats)
    (t : List DailyBatcherStats) (h : ∀ r ∈ rows, settled r t) :
    Snapshot.insert_daily_batcher_stats t rows = t := by
  unfold Snapshot.insert_daily_batcher_stats
  induction rows generalizing t with
  | nil => rfl
  | cons r0 rest ih =>
      have he : Snapshot.upsert_stat t r0 = t :=
        upsert_stat_settled r0 t (h r0 (List.mem_cons_self r0 rest))
      show rest.foldl Snapshot.upsert_stat (Snapshot.upsert_stat t r0) = t
      rw [he]
      exact ih t (fun x hx => h x (List.mem_cons_of_mem r0 hx))

/-- Upserting the same pairwise-distinct batch twice equals upserting it
once. -/
theorem insert_daily_batcher_stats_idem (rows : List DailyBatcherStats)
    (t : List DailyBatcherStats)
    (hp : List.Pairwise (fun a b => Snapshot.statKeyEq b a = false) rows) :
    Snapshot.insert_daily_batcher_stats
      (Snapshot.insert_daily_batcher_stats t rows) rows =
    Snapshot.insert_daily_batcher_stats t rows :=
  insert_settled_eq rows _ (settled_after_insert rows t hp)

/-- Address uniqueness in a batch gives pairwise-distinct keys. -/
theorem pairwise_keys_of_nodup_addr (rows : List DailyBatcherStats)
    (h : (rows.map (fun r => r.batcher_address)).Nodup) :
    List.Pairwise (fun a b => Snapshot.statKeyEq b a = false) rows := by
  unfold List.Nodup at h
  rw [List.pairwise_map] at h
  refine h.imp ?_
  intro a b hab
  unfold Snapshot.statKeyEq
  have hf : (b.batcher_address == a.batcher_address) = false := by
    simp only [beq_eq_false_iff_ne]
    exact fun hc => hab hc.symm
  rw [hf]
  rfl

/-- The batch built by a snapshot run has one row per address. -/
theorem snapshot_rows_addr_nodup (now_ts : Int) (s : DbState) :
    ((snapshot_rows now_ts s).map (fun r => r.batcher_address)).Nodup := by
  have hkeq : (snapshot_rows now_ts s).map (fun r => r.batcher_address) =
      keysOf (Snapshot.snapshot_merge (snapDt now_ts s) (snapEt now_ts s)
        (snapBg now_ts s) (snapPg now_ts s)) := by
    unfold snapshot_rows keysOf
    rw [List.map_map]
    rfl
  rw [hkeq]
  exact snapshot_merge_nodup _ _ _ _

/-- C9: running the snapshot twice at the same time over the same
underlying transactions is idempotent — the second run recomputes the
identical row batch from the unchanged AnalyzedTransaction data and its
per-(address, day) upsert leaves the stats table exactly as after the
first run, with one row per address rather than appended duplicates. -/
theorem C9_snapshot_idempotent (now_ts : Int) (s : DbState) :
    (Snapshot.create_and_save_snapshot now_ts
        (Snapshot.create_and_save_snapshot now_ts s).1).2 =
      (Snapshot.create_and_save_snapshot now_ts s).2
    ∧ (Snapshot.create_and_save_snapshot now_ts
        (Snapshot.create_and_save_snapshot now_ts s).1).1 =
      (Snapshot.create_and_save_snapshot now_ts s).1
    ∧ ((Snapshot.create_and_save_snapshot now_ts s).2.map
        (fun r => r.batcher_address)).Nodup := by
  have hrows2 : snapshot_rows now_ts
      (Snapshot.create_and_save_snapshot now_ts s).1 = snapshot_rows now_ts s :=
    rfl
  have hnd : ((snapshot_rows now_ts s).map (fun r => r.batcher_address)).Nodup :=
    snapshot_rows_addr_nodup now_ts s
  have hpair := pairwise_keys_of_nodup_addr _ hnd
  have hidem := insert_daily_batcher_stats_idem (snapshot_rows now_ts s)
    s.daily_batcher_stats hpair
  refine ⟨?_, ?_, hnd⟩
  · show snapshot_rows now_ts (Snapshot.create_and_save_snapshot now_ts s).1 =
      snapshot_rows now_ts s
    exact hrows2
  · show ({ (Snapshot.create_and_save_snapshot now_ts s).1 with
        daily_batcher_stats := Snapshot.insert_daily_batcher_stats
          (Snapshot.create_and_save_snapshot now_ts s).1.daily_batcher_stats
          (snapshot_rows now_ts (Snapshot.create_and_save_snapshot now_ts s).1) }
      : DbState) = (Snapshot.create_and_save_snapshot now_ts s).1
    rw [hrows2]
    have hstats : (Snapshot.create_and_save_snapshot now_ts s).1.daily_batcher_stats =
        Snapshot.insert_daily_batcher_stats s.daily_batcher_stats
          (snapshot_rows now_ts s) := rfl
    rw [hstats, hidem]
    rfl
